import Mathlib

/-!
Verification of the MLB data-platform collection core.

The collectors in `src/collectors` are shallowly embedded here: SQLite
tables become association lists keyed by their primary key, upstream API
payloads become typed input structures (a fetch that can raise becomes an
`Except` value supplied as input), Python floats become exact rationals,
and every collector's `collect` loop becomes structural recursion over its
input lists, threading the table and the returned count explicitly.
-/

namespace MLB

/-! ## Generic association-list tables

A SQLite table with a (possibly compound) primary/unique key is modelled as
a `List (κ × α)`.  `INSERT OR REPLACE` removes any row with the same key and
prepends the fresh row; a keyed `SELECT` returns the first match. -/

def lookupTab {κ α : Type} [DecidableEq κ] : List (κ × α) → κ → Option α
  | [], _ => none
  | (k', v) :: rest, k => if k' = k then some v else lookupTab rest k

def upsertTab {κ α : Type} [DecidableEq κ] (t : List (κ × α)) (k : κ) (v : α) :
    List (κ × α) :=
  (k, v) :: t.filter (fun e => decide (e.1 ≠ k))

theorem lookupTab_upsertTab_self {κ α : Type} [DecidableEq κ]
    (t : List (κ × α)) (k : κ) (v : α) :
    lookupTab (upsertTab t k v) k = some v := by
  simp [lookupTab, upsertTab]

theorem lookupTab_filter_ne {κ α : Type} [DecidableEq κ]
    (t : List (κ × α)) (k q : κ) (hne : k ≠ q) :
    lookupTab (t.filter (fun e => decide (e.1 ≠ k))) q = lookupTab t q := by
  induction t with
  | nil => rfl
  | cons e rest ih =>
    by_cases h : e.1 = k
    · have hfil : (e :: rest).filter (fun x => decide (x.1 ≠ k)) =
          rest.filter (fun x => decide (x.1 ≠ k)) := by
        simp [List.filter_cons, h]
      have heq : e.1 ≠ q := by rw [h]; exact hne
      rw [hfil, ih]
      simp [lookupTab, heq]
    · have hfil : (e :: rest).filter (fun x => decide (x.1 ≠ k)) =
          e :: rest.filter (fun x => decide (x.1 ≠ k)) := by
        simp [List.filter_cons, h]
      rw [hfil]
      by_cases hq : e.1 = q
      · simp [lookupTab, hq]
      · simp only [lookupTab, if_neg hq]
        simpa using ih

theorem lookupTab_upsertTab_ne {κ α : Type} [DecidableEq κ]
    (t : List (κ × α)) (k q : κ) (v : α) (hne : k ≠ q) :
    lookupTab (upsertTab t k v) q = lookupTab t q := by
  simp only [upsertTab, lookupTab, if_neg hne]
  exact lookupTab_filter_ne t k q hne

/-! ## Python-scalar modelling

Upstream JSON scalars that the code branches on by runtime type
(`isinstance(..., str)`) are modelled by `JsonVal`.  `float(...)` applied to
a decimal string is `parseDec`; applied to a number it is the identity.
Python machine floats are modelled as exact rationals. -/

inductive JsonVal where
  | str (s : String)
  | num (q : ℚ)
deriving DecidableEq

def allDigits (l : List Char) : Bool := l.all Char.isDigit

def natOfDigits (l : List Char) : ℕ :=
  l.foldl (fun a c => a * 10 + (c.toNat - 48)) 0

/-- Split a character list at every dot. -/
def splitDotAux : List Char → List (List Char)
  | [] => [[]]
  | c :: cs =>
      if c = '.' then [] :: splitDotAux cs
      else
        match splitDotAux cs with
        | [] => [[c]]
        | p :: ps => (c :: p) :: ps

/-- Value of a dot-split unsigned decimal: one part `I` is the integer `I`;
two parts `I.F` are the exact rational `(I * 10^|F| + F) / 10^|F|` (built
with `Rat.divInt` so that concrete parses evaluate by `decide`); no digits,
or more than one dot, is invalid. -/
def ofParts : List (List Char) → Option ℚ
  | [ipart] =>
      if 0 < ipart.length ∧ allDigits ipart then
        some (Rat.divInt (natOfDigits ipart) 1)
      else none
  | [ipart, fpart] =>
      if 0 < ipart.length + fpart.length ∧ allDigits ipart ∧ allDigits fpart then
        some (Rat.divInt (natOfDigits ipart * 10 ^ fpart.length + natOfDigits fpart)
          (10 ^ fpart.length))
      else none
  | _ => none

def parseDecPos (body : List Char) : Option ℚ := ofParts (splitDotAux body)

/-- Model of Python `float(s)` on plain decimal strings: optional leading
minus sign, then digits with at most one dot and at least one digit.
Anything else raises `ValueError`, modelled as `none`. -/
def parseDecCore : List Char → Option ℚ
  | '-' :: body => (parseDecPos body).map (fun q => -q)
  | body => parseDecPos body

def parseDec (s : String) : Option ℚ := parseDecCore s.data

/-- Model of Python `int(s)`: optional minus sign then digits. -/
def parseIntStr (s : String) : Option ℤ :=
  let neg : Bool := s.data.head? = some '-'
  let body := if neg then s.data.tail else s.data
  if 0 < body.length ∧ allDigits body then
    some ((if neg then -1 else 1) * (natOfDigits body : ℤ))
  else none

/-- Python `float(x)` where `x` is a string or a number. -/
def pyFloat : JsonVal → Option ℚ
  | .str s => parseDec s
  | .num q => some q

/-- Python `int(x)` truncation toward zero. -/
def pyTrunc (q : ℚ) : ℤ := if 0 ≤ q then ⌊q⌋ else -⌊-q⌋

/-- Python `round(x)` to an integer: round half to even. -/
def pyRound (q : ℚ) : ℤ :=
  let f := ⌊q⌋
  let r := q - f
  if r < 1 / 2 then f
  else if 1 / 2 < r then f + 1
  else if f % 2 = 0 then f else f + 1

/-- Python `s.replace(".", "0.", 1)`: rewrite the first dot, if any. -/
def replFirstDotAux : List Char → List Char
  | [] => []
  | c :: cs => if c = '.' then '0' :: '.' :: cs else c :: replFirstDotAux cs

def pyReplaceDotOnce (s : String) : String := ⟨replFirstDotAux s.data⟩

/-! ## `_ip_to_outs` (src/collectors/pitcher.py lines 13-29) -/

/-- Core arithmetic of `_ip_to_outs` once the argument is a float:
`whole = int(ip)`, `fraction = round((ip - whole) * 10)`,
result `whole * 3 + fraction`. -/
def ipToOutsF (ip : ℚ) : ℤ :=
  let whole := pyTrunc ip
  let fraction := pyRound ((ip - whole) * 10)
  whole * 3 + fraction

/-- `_ip_to_outs(ip)` where `ip` is a float or a numeric string
(`ip_float = float(ip)` first); a non-numeric string raises. -/
def ipToOuts (ip : JsonVal) : Option ℤ := (pyFloat ip).map ipToOutsF

/-! ## Pitcher derived stats (src/collectors/pitcher.py lines 98-119) -/

/-- Role rule at pitcher.py:101: `"SP" if games_played > 0 and
games_started >= games_played * 0.5 else "RP"`. -/
def pitcherRole (gamesPlayed gamesStarted : ℤ) : String :=
  if 0 < gamesPlayed ∧ (gamesPlayed : ℚ) * (1 / 2) ≤ (gamesStarted : ℚ) then "SP" else "RP"

/-- `(x / ip * 9) if ip > 0 else 0.0` (pitcher.py:117-118). -/
def ratePer9 (x : ℤ) (ip : ℚ) : ℚ :=
  if 0 < ip then (x : ℚ) / ip * 9 else 0

/-- `(k / bb) if bb > 0 else 0.0` (pitcher.py:119). -/
def kBB (k bb : ℤ) : ℚ :=
  if 0 < bb then (k : ℚ) / (bb : ℚ) else 0

end MLB

namespace MLB

/-- C5: for every nonnegative innings-pitched value, the outs conversion
returns `floor(IP) * 3 + round((IP - floor(IP)) * 10)`; in particular
6.0 ↦ 18, 6.2 ↦ 20, 5.1 ↦ 16, 0.0 ↦ 0, the string "7.1" ↦ 22 and
9.0 ↦ 27. -/
theorem ip_to_outs_spec :
    (∀ ip : ℚ, 0 ≤ ip → ipToOutsF ip = ⌊ip⌋ * 3 + pyRound ((ip - ⌊ip⌋) * 10)) ∧
    ipToOuts (.num 6) = some 18 ∧
    ipToOuts (.num (62 / 10)) = some 20 ∧
    ipToOuts (.num (51 / 10)) = some 16 ∧
    ipToOuts (.num 0) = some 0 ∧
    ipToOuts (.str "7.1") = some 22 ∧
    ipToOuts (.num 9) = some 27 := by
  have heval : ∀ q : ℚ, ipToOuts (.num q) = some (ipToOutsF q) := fun _ => rfl
  have hstr : ipToOuts (.str "7.1") = some (ipToOutsF (71 / 10)) := by
    have hp : parseDec "7.1" = some (Rat.divInt 71 10) := by decide
    have hq : (Rat.divInt 71 10 : ℚ) = 71 / 10 := by norm_num [Rat.divInt_eq_div]
    simp [ipToOuts, pyFloat, hp, hq]
  refine ⟨fun ip h => ?_, ?_, ?_, ?_, ?_, ?_, ?_⟩
  · simp [ipToOutsF, pyTrunc, if_pos h]
  all_goals
    first
    | (rw [heval]; norm_num [ipToOutsF, pyTrunc, pyRound])
    | (rw [hstr]; norm_num [ipToOutsF, pyTrunc, pyRound])

theorem ip_to_outs_spec_witness :
    ipToOutsF (62 / 10) =
      ⌊(62 / 10 : ℚ)⌋ * 3 + pyRound (((62 / 10 : ℚ) - ⌊(62 / 10 : ℚ)⌋) * 10) :=
  ip_to_outs_spec.1 (62 / 10) (by norm_num)

/-- C6: the stored pitcher role is "SP" exactly when `games_played > 0` and
`games_started ≥ 0.5 * games_played`, and "RP" otherwise; in particular
(25, 25) ↦ SP, (60, 0) ↦ RP, (30, 15) ↦ SP, and `games_played = 0` ↦ RP. -/
theorem pitcher_role_spec :
    (∀ gp gs : ℤ, pitcherRole gp gs = "SP" ↔
      0 < gp ∧ (gp : ℚ) * (1 / 2) ≤ (gs : ℚ)) ∧
    pitcherRole 25 25 = "SP" ∧
    pitcherRole 60 0 = "RP" ∧
    pitcherRole 30 15 = "SP" ∧
    (∀ gs : ℤ, pitcherRole 0 gs = "RP") := by
  refine ⟨fun gp gs => ?_, by norm_num [pitcherRole], by norm_num [pitcherRole],
    by norm_num [pitcherRole], fun gs => by norm_num [pitcherRole]⟩
  unfold pitcherRole
  split
  · next h => simp only [true_iff]; exact h
  · next h =>
    constructor
    · intro hcontr
      exact absurd hcontr (by decide)
    · intro hcond; exact absurd hcond h

/-- C7: each per-9 rate equals `x / ip * 9` when `ip` is nonzero and `0`
when `ip = 0`; `k_bb_ratio` equals `k / bb` when `bb` is nonzero and `0`
when `bb = 0` (nonnegative stat values); concretely k=200, bb=40, ip=160
gives 11.25, 2.25 and 5. -/
theorem pitcher_rates_spec :
    (∀ (ip : ℚ) (k bb : ℤ), 0 ≤ ip → 0 ≤ bb →
      (ip ≠ 0 → ratePer9 k ip = (k : ℚ) / ip * 9 ∧ ratePer9 bb ip = (bb : ℚ) / ip * 9) ∧
      (ip = 0 → ratePer9 k ip = 0 ∧ ratePer9 bb ip = 0) ∧
      (bb ≠ 0 → kBB k bb = (k : ℚ) / (bb : ℚ)) ∧
      (bb = 0 → kBB k bb = 0)) ∧
    ratePer9 200 160 = 45 / 4 ∧
    ratePer9 40 160 = 9 / 4 ∧
    kBB 200 40 = 5 ∧
    (∀ k : ℤ, kBB k 0 = 0) := by
  refine ⟨fun ip k bb hip hbb => ?_, by norm_num [ratePer9], by norm_num [ratePer9],
    by norm_num [kBB], fun k => by simp [kBB]⟩
  refine ⟨fun hne => ?_, fun heq => ?_, fun hbne => ?_, fun hbeq => ?_⟩
  · have hpos : 0 < ip := lt_of_le_of_ne hip (Ne.symm hne)
    constructor <;> simp [ratePer9, if_pos hpos]
  · subst heq
    constructor <;> simp [ratePer9]
  · have hpos : 0 < bb := lt_of_le_of_ne hbb (Ne.symm hbne)
    simp [kBB, if_pos hpos]
  · subst hbeq
    simp [kBB]

theorem pitcher_rates_spec_witness :
    ((160 : ℚ) ≠ 0 → ratePer9 200 160 = (200 : ℚ) / 160 * 9 ∧
      ratePer9 40 160 = (40 : ℚ) / 160 * 9) ∧
    ((160 : ℚ) = 0 → ratePer9 200 160 = 0 ∧ ratePer9 40 160 = 0) ∧
    ((40 : ℤ) ≠ 0 → kBB 200 40 = (200 : ℚ) / (40 : ℚ)) ∧
    ((40 : ℤ) = 0 → kBB 200 40 = 0) :=
  pitcher_rates_spec.1 160 200 40 (by norm_num) (by norm_num)

end MLB

namespace MLB

/-! ## Season-stat collectors (src/collectors/batter.py, src/collectors/pitcher.py)

`BatterStatsCollector.collect` and `PitcherStatsCollector.collect` share one
shape: iterate teams, fetch each roster (a failure skips the team), filter
roster entries by position abbreviation, fetch the player's stats (a failure
skips the player), locate the stat group whose display name is "season",
gate on `_should_update`, and only then build and upsert the full row.  The
shared shape is `runSeasonTeams`, parameterised by a `SeasonParams` record;
the two collectors are its two instances. -/

/-- One entry of the `stats` list of a player-stats response: a group tagged
by `type.displayName` whose `stats` payload may be empty (`none`). -/
structure StatGroup (σ : Type) where
  displayName : String
  stats : Option σ
deriving DecidableEq

/-- A player-stats response: the `stats` group list plus the handedness
field (`bat_side` for batters, `pitch_hand` for pitchers). -/
structure SeasonData (σ : Type) where
  stats : List (StatGroup σ)
  side : String
deriving DecidableEq

/-- A roster entry together with the (determinised) outcome of the
per-player stats fetch: `Except.error` models a raised exception. -/
structure SRosterEntry (σ : Type) where
  player_id : ℤ
  player_name : String
  pos_abbrev : String
  fetch : Except String (SeasonData σ)

/-- One team id together with the outcome of its roster fetch. -/
structure STeamFetch (σ : Type) where
  team_id : ℤ
  roster : Except String (List (SRosterEntry σ))

/-- First stat group whose display name is "season" (batter.py:73-77,
pitcher.py:84-88); an empty `stats` dict is falsy and skipped. -/
def findSeasonStat {σ : Type} : List (StatGroup σ) → Option σ
  | [] => none
  | g :: gs => if g.displayName = "season" then g.stats else findSeasonStat gs

/-- The collector-specific parts: which positions are processed, how to read
`gamesPlayed` from a fetched stat block and `games_played` from a stored
row, and how to build the row that is upserted (`none` models an uncaught
conversion error such as `float()` on a malformed string). -/
structure SeasonParams (σ ρ : Type) where
  keepPos : String → Bool
  gamesOf : σ → ℤ
  storedGames : ρ → ℤ
  mkRow : ℤ → SRosterEntry σ → SeasonData σ → σ → Option ρ

/-- `_should_update` (batter.py:131-140, pitcher.py:153-162): select the
stored `games_played` by player id only; update iff the row is missing or
the stored value differs from the fresh one. -/
def shouldUpdateRow {σ ρ : Type} (P : SeasonParams σ ρ) (db : List (ℤ × ρ))
    (pid gp : ℤ) : Bool :=
  match lookupTab db pid with
  | none => true
  | some r => P.storedGames r != gp

/-- Process one roster entry: position filter, stat fetch (exception skips),
season-group lookup (missing skips), `_should_update` gate, then row build
and `INSERT OR REPLACE` with the returned count incremented. -/
def processSeasonEntry {σ ρ : Type} (P : SeasonParams σ ρ) (tid : ℤ)
    (s : List (ℤ × ρ) × ℕ) (e : SRosterEntry σ) : Option (List (ℤ × ρ) × ℕ) :=
  if P.keepPos e.pos_abbrev then
    match e.fetch with
    | .error _ => some s
    | .ok sd =>
      match findSeasonStat sd.stats with
      | none => some s
      | some st =>
        if shouldUpdateRow P s.1 e.player_id (P.gamesOf st) then
          match P.mkRow tid e sd st with
          | none => none
          | some row => some (upsertTab s.1 e.player_id row, s.2 + 1)
        else some s
  else some s

def runSeasonEntries {σ ρ : Type} (P : SeasonParams σ ρ) (tid : ℤ) :
    List (ℤ × ρ) × ℕ → List (SRosterEntry σ) → Option (List (ℤ × ρ) × ℕ)
  | s, [] => some s
  | s, e :: es =>
    match processSeasonEntry P tid s e with
    | none => none
    | some s' => runSeasonEntries P tid s' es

/-- The outer team loop (batter.py:43-48, pitcher.py:55-60): a roster-fetch
exception skips the team and the loop continues. -/
def runSeasonTeams {σ ρ : Type} (P : SeasonParams σ ρ) :
    List (ℤ × ρ) × ℕ → List (STeamFetch σ) → Option (List (ℤ × ρ) × ℕ)
  | s, [] => some s
  | s, t :: ts =>
    match t.roster with
    | .error _ => runSeasonTeams P s ts
    | .ok entries =>
      match runSeasonEntries P t.team_id s entries with
      | none => none
      | some s' => runSeasonTeams P s' ts

/-! ### Batter instance -/

/-- The fetched season hitting stat block, with the fields the collector
reads; count fields carry the `int(...)` of the payload value with its `0`
default, rate fields keep their raw string-or-number shape. -/
structure BatStat where
  gamesPlayed : ℤ
  plateAppearances : ℤ
  atBats : ℤ
  hits : ℤ
  doubles : ℤ
  triples : ℤ
  homeRuns : ℤ
  rbi : ℤ
  runs : ℤ
  stolenBases : ℤ
  caughtStealing : ℤ
  baseOnBalls : ℤ
  strikeOuts : ℤ
  totalBases : ℤ
  avg : Option JsonVal
  obp : Option JsonVal
  slg : Option JsonVal
  ops : Option JsonVal
deriving DecidableEq

/-- A `batter_stats` row (all columns of the INSERT at batter.py:91-121
except the `player_id` key, which is the table key). -/
structure BatterRow where
  player_name : String
  team_id : ℤ
  position : String
  season : String
  games_played : ℤ
  plate_appearances : ℤ
  at_bats : ℤ
  hits : ℤ
  doubles : ℤ
  triples : ℤ
  home_runs : ℤ
  rbi : ℤ
  runs : ℤ
  stolen_bases : ℤ
  caught_stealing : ℤ
  walks : ℤ
  strikeouts : ℤ
  batting_avg : ℚ
  obp : ℚ
  slg : ℚ
  ops : ℚ
  total_bases : ℤ
  bats : String
  last_updated : String
deriving DecidableEq

def BAT_SIDE_MAP : List (String × String) :=
  [("Left", "L"), ("Right", "R"), ("Switch", "S")]

/-- Python `dict.get(k, d)` over a literal string map. -/
def dictGetD (m : List (String × String)) (k d : String) : String :=
  match m.find? (fun p => p.1 == k) with
  | some p => p.2
  | none => d

/-- batter.py:114-117, for each of avg/obp/slg/ops:
`float(stat.get(f, ".000").replace(".", "0.", 1)) if isinstance(stat.get(f), str)
else float(stat.get(f, 0))`.  A missing field takes the else branch and
stores `float(0)`; a string has its first dot rewritten to "0." and is then
parsed (a parse failure raises, modelled `none`); a number is unchanged. -/
def normRateField : Option JsonVal → Option ℚ
  | some (.str s) => parseDec (pyReplaceDotOnce s)
  | some (.num q) => some q
  | none => some 0

def batterParams (season now : String) : SeasonParams BatStat BatterRow where
  keepPos := fun pos => pos != "P"
  gamesOf := fun st => st.gamesPlayed
  storedGames := fun r => r.games_played
  mkRow := fun tid e sd st => do
    let avg ← normRateField st.avg
    let obp ← normRateField st.obp
    let slg ← normRateField st.slg
    let ops ← normRateField st.ops
    pure {
      player_name := e.player_name
      team_id := tid
      position := e.pos_abbrev
      season := season
      games_played := st.gamesPlayed
      plate_appearances := st.plateAppearances
      at_bats := st.atBats
      hits := st.hits
      doubles := st.doubles
      triples := st.triples
      home_runs := st.homeRuns
      rbi := st.rbi
      runs := st.runs
      stolen_bases := st.stolenBases
      caught_stealing := st.caughtStealing
      walks := st.baseOnBalls
      strikeouts := st.strikeOuts
      batting_avg := avg
      obp := obp
      slg := slg
      ops := ops
      total_bases := st.totalBases
      bats := dictGetD BAT_SIDE_MAP sd.side sd.side
      last_updated := now }

/-- `BatterStatsCollector.collect` (batter.py:27-129) over determinised
fetch results; `now` models `datetime.now().isoformat()`. -/
def collectBatterStats (season now : String) (db : List (ℤ × BatterRow))
    (teams : List (STeamFetch BatStat)) : Option (List (ℤ × BatterRow) × ℕ) :=
  runSeasonTeams (batterParams season now) (db, 0) teams

/-! ### Pitcher instance -/

/-- The fetched season pitching stat block. -/
structure PitStat where
  gamesPlayed : ℤ
  gamesStarted : ℤ
  wins : ℤ
  losses : ℤ
  strikeOuts : ℤ
  baseOnBalls : ℤ
  hits : ℤ
  homeRuns : ℤ
  earnedRuns : ℤ
  inningsPitched : Option JsonVal
  era : Option JsonVal
  whip : Option JsonVal
deriving DecidableEq

/-- A `pitcher_stats` row (all columns of the INSERT at pitcher.py:121-143
except the `player_id` key); `position` stores the derived role. -/
structure PitcherRow where
  player_name : String
  team_id : ℤ
  position : String
  season : String
  games_played : ℤ
  games_started : ℤ
  innings_pitched : ℚ
  wins : ℤ
  losses : ℤ
  era : ℚ
  whip : ℚ
  strikeouts : ℤ
  walks_allowed : ℤ
  hits_allowed : ℤ
  home_runs_allowed : ℤ
  earned_runs : ℤ
  k_per_9 : ℚ
  bb_per_9 : ℚ
  k_bb : ℚ
  throws : String
  last_updated : String
deriving DecidableEq

/-- pitcher.py:106-110: normalize `pitch_hand`. -/
def normThrows (raw : String) : String :=
  if raw = "Left" then "L" else if raw = "Right" then "R" else raw

def pitcherParams (season now : String) : SeasonParams PitStat PitcherRow where
  keepPos := fun pos => pos == "P"
  gamesOf := fun st => st.gamesPlayed
  storedGames := fun r => r.games_played
  mkRow := fun tid e sd st => do
    let ip ← pyFloat (st.inningsPitched.getD (.str "0"))
    let era ← pyFloat (st.era.getD (.str "0"))
    let whip ← pyFloat (st.whip.getD (.str "0"))
    pure {
      player_name := e.player_name
      team_id := tid
      position := pitcherRole st.gamesPlayed st.gamesStarted
      season := season
      games_played := st.gamesPlayed
      games_started := st.gamesStarted
      innings_pitched := ip
      wins := st.wins
      losses := st.losses
      era := era
      whip := whip
      strikeouts := st.strikeOuts
      walks_allowed := st.baseOnBalls
      hits_allowed := st.hits
      home_runs_allowed := st.homeRuns
      earned_runs := st.earnedRuns
      k_per_9 := ratePer9 st.strikeOuts ip
      bb_per_9 := ratePer9 st.baseOnBalls ip
      k_bb := kBB st.strikeOuts st.baseOnBalls
      throws := normThrows sd.side
      last_updated := now }

/-- `PitcherStatsCollector.collect` (pitcher.py:40-151) over determinised
fetch results. -/
def collectPitcherStats (season now : String) (db : List (ℤ × PitcherRow))
    (teams : List (STeamFetch PitStat)) : Option (List (ℤ × PitcherRow) × ℕ) :=
  runSeasonTeams (pitcherParams season now) (db, 0) teams

/-- Remove every roster entry of one player from a batch's input, used to
state that a skipped player contributes nothing to result or count. -/
def dropPlayerTeams {σ : Type} (p : ℤ) (teams : List (STeamFetch σ)) :
    List (STeamFetch σ) :=
  teams.map (fun t =>
    { t with roster := t.roster.map (fun es => es.filter (fun e => e.player_id != p)) })

end MLB

namespace MLB

theorem processSeasonEntry_cases {σ ρ : Type} (P : SeasonParams σ ρ) (tid : ℤ)
    (s : List (ℤ × ρ) × ℕ) (e : SRosterEntry σ) :
    processSeasonEntry P tid s e = some s ∨
    processSeasonEntry P tid s e = none ∨
    ∃ row, processSeasonEntry P tid s e = some (upsertTab s.1 e.player_id row, s.2 + 1) := by
  unfold processSeasonEntry
  split
  · split
    · left; rfl
    · split
      · left; rfl
      · split
        · split
          · right; left; rfl
          · right; right; exact ⟨_, rfl⟩
        · left; rfl
  · left; rfl

theorem processSeasonEntry_lookup_ne {σ ρ : Type} (P : SeasonParams σ ρ) (tid : ℤ)
    (s s' : List (ℤ × ρ) × ℕ) (e : SRosterEntry σ) (q : ℤ) (hq : e.player_id ≠ q)
    (h : processSeasonEntry P tid s e = some s') :
    lookupTab s'.1 q = lookupTab s.1 q := by
  rcases processSeasonEntry_cases P tid s e with h1 | h1 | ⟨row, h1⟩
  · rw [h1] at h; cases h; rfl
  · rw [h1] at h; cases h
  · rw [h1] at h; cases h
    exact lookupTab_upsertTab_ne _ _ _ _ hq

theorem processSeasonEntry_skip {σ ρ : Type} (P : SeasonParams σ ρ) (tid : ℤ)
    (s : List (ℤ × ρ) × ℕ) (e : SRosterEntry σ) (row : ρ)
    (hrow : lookupTab s.1 e.player_id = some row)
    (hgp : ∀ sd, e.fetch = .ok sd → ∀ st, findSeasonStat sd.stats = some st →
      P.gamesOf st = P.storedGames row) :
    processSeasonEntry P tid s e = some s := by
  cases hfe : e.fetch with
  | error m =>
    simp [processSeasonEntry, hfe]
  | ok sd =>
    cases hst : findSeasonStat sd.stats with
    | none => simp [processSeasonEntry, hfe, hst]
    | some st =>
      have hg : P.gamesOf st = P.storedGames row := hgp sd hfe st hst
      have hgate : shouldUpdateRow P s.1 e.player_id (P.gamesOf st) = false := by
        simp [shouldUpdateRow, hrow, hg]
      simp [processSeasonEntry, hfe, hst, hgate]

theorem runSeasonEntries_dropPlayer {σ ρ : Type} (P : SeasonParams σ ρ) (tid p : ℤ)
    (row : ρ) :
    ∀ (es : List (SRosterEntry σ)) (s : List (ℤ × ρ) × ℕ),
    lookupTab s.1 p = some row →
    (∀ e ∈ es, e.player_id = p → ∀ sd, e.fetch = .ok sd → ∀ st,
      findSeasonStat sd.stats = some st → P.gamesOf st = P.storedGames row) →
    runSeasonEntries P tid s es =
      runSeasonEntries P tid s (es.filter (fun e => e.player_id != p)) ∧
    (∀ s', runSeasonEntries P tid s es = some s' → lookupTab s'.1 p = some row) := by
  intro es
  induction es with
  | nil =>
    intro s hrow _
    exact ⟨rfl, fun s' h => by cases h; exact hrow⟩
  | cons e es ih =>
    intro s hrow hyp
    by_cases hp : e.player_id = p
    · have hskip : processSeasonEntry P tid s e = some s := by
        refine processSeasonEntry_skip P tid s e row ?_ ?_
        · rw [hp]; exact hrow
        · exact hyp e (by simp) hp
      have hfil : (e :: es).filter (fun x => x.player_id != p) =
          es.filter (fun x => x.player_id != p) := by
        simp [List.filter_cons, hp]
      have hyp' : ∀ x ∈ es, x.player_id = p → ∀ sd, x.fetch = .ok sd → ∀ st,
          findSeasonStat sd.stats = some st → P.gamesOf st = P.storedGames row :=
        fun x hx => hyp x (by simp [hx])
      obtain ⟨ihEq, ihPres⟩ := ih s hrow hyp'
      rw [hfil]
      constructor
      · simp only [runSeasonEntries, hskip]
        exact ihEq
      · intro s' h
        simp only [runSeasonEntries, hskip] at h
        exact ihPres s' h
    · have hfil : (e :: es).filter (fun x => x.player_id != p) =
          e :: es.filter (fun x => x.player_id != p) := by
        simp [List.filter_cons, hp]
      have hyp' : ∀ x ∈ es, x.player_id = p → ∀ sd, x.fetch = .ok sd → ∀ st,
          findSeasonStat sd.stats = some st → P.gamesOf st = P.storedGames row :=
        fun x hx => hyp x (by simp [hx])
      rw [hfil]
      cases hpe : processSeasonEntry P tid s e with
      | none =>
        constructor
        · simp only [runSeasonEntries, hpe]
        · intro s' h
          simp only [runSeasonEntries, hpe] at h
          cases h
      | some s₁ =>
        have hlk : lookupTab s₁.1 p = some row := by
          rw [processSeasonEntry_lookup_ne P tid s s₁ e p hp hpe]
          exact hrow
        obtain ⟨ihEq, ihPres⟩ := ih s₁ hlk hyp'
        constructor
        · simp only [runSeasonEntries, hpe]
          exact ihEq
        · intro s' h
          simp only [runSeasonEntries, hpe] at h
          exact ihPres s' h

theorem runSeasonTeams_dropPlayer {σ ρ : Type} (P : SeasonParams σ ρ) (p : ℤ) (row : ρ) :
    ∀ (ts : List (STeamFetch σ)) (s : List (ℤ × ρ) × ℕ),
    lookupTab s.1 p = some row →
    (∀ t ∈ ts, ∀ es, t.roster = .ok es → ∀ e ∈ es, e.player_id = p →
      ∀ sd, e.fetch = .ok sd → ∀ st, findSeasonStat sd.stats = some st →
        P.gamesOf st = P.storedGames row) →
    runSeasonTeams P s ts = runSeasonTeams P s (dropPlayerTeams p ts) ∧
    (∀ s', runSeasonTeams P s ts = some s' → lookupTab s'.1 p = some row) := by
  intro ts
  induction ts with
  | nil =>
    intro s hrow _
    exact ⟨rfl, fun s' h => by cases h; exact hrow⟩
  | cons t ts ih =>
    intro s hrow hyp
    have hyp' : ∀ x ∈ ts, ∀ es, x.roster = .ok es → ∀ e ∈ es, e.player_id = p →
        ∀ sd, e.fetch = .ok sd → ∀ st, findSeasonStat sd.stats = some st →
          P.gamesOf st = P.storedGames row :=
      fun x hx => hyp x (by simp [hx])
    have hdrop : dropPlayerTeams p (t :: ts) =
        ({ t with roster := t.roster.map (fun es => es.filter (fun e => e.player_id != p)) }
          : STeamFetch σ) :: dropPlayerTeams p ts := rfl
    rw [hdrop]
    cases hr : t.roster with
    | error m =>
      obtain ⟨ihEq, ihPres⟩ := ih s hrow hyp'
      constructor
      · simp only [runSeasonTeams, hr, Except.map]
        exact ihEq
      · intro s' h
        simp only [runSeasonTeams, hr] at h
        exact ihPres s' h
    | ok es =>
      obtain ⟨heq, hpres⟩ := runSeasonEntries_dropPlayer P t.team_id p row es s hrow
        (hyp t (by simp) es hr)
      cases hre : runSeasonEntries P t.team_id s es with
      | none =>
        constructor
        · simp only [runSeasonTeams, hr, Except.map, ← heq, hre]
        · intro s' h
          simp only [runSeasonTeams, hr, hre] at h
          cases h
      | some s₁ =>
        have hlk : lookupTab s₁.1 p = some row := hpres s₁ hre
        obtain ⟨ihEq, ihPres⟩ := ih s₁ hlk hyp'
        constructor
        · simp only [runSeasonTeams, hr, Except.map, ← heq, hre]
          exact ihEq
        · intro s' h
          simp only [runSeasonTeams, hr, hre] at h
          exact ihPres s' h

end MLB

namespace MLB

/-- C1: for every player whose freshly fetched `gamesPlayed` equals the
`games_played` stored for that player id, both season-stat collectors leave
the player's row unmodified (no write) and the returned count excludes the
player: the whole run equals the run with that player's roster entries
removed, and the player's stored row is unchanged at the end. -/
theorem season_stats_skip_unchanged :
    (∀ (season now : String) (db : List (ℤ × BatterRow))
        (teams : List (STeamFetch BatStat)) (p : ℤ) (row : BatterRow),
      lookupTab db p = some row →
      (∀ t ∈ teams, ∀ es, t.roster = Except.ok es → ∀ e ∈ es, e.player_id = p →
        ∀ sd, e.fetch = Except.ok sd → ∀ st, findSeasonStat sd.stats = some st →
          st.gamesPlayed = row.games_played) →
      collectBatterStats season now db teams =
        collectBatterStats season now db (dropPlayerTeams p teams) ∧
      ∀ res, collectBatterStats season now db teams = some res →
        lookupTab res.1 p = some row) ∧
    (∀ (season now : String) (db : List (ℤ × PitcherRow))
        (teams : List (STeamFetch PitStat)) (p : ℤ) (row : PitcherRow),
      lookupTab db p = some row →
      (∀ t ∈ teams, ∀ es, t.roster = Except.ok es → ∀ e ∈ es, e.player_id = p →
        ∀ sd, e.fetch = Except.ok sd → ∀ st, findSeasonStat sd.stats = some st →
          st.gamesPlayed = row.games_played) →
      collectPitcherStats season now db teams =
        collectPitcherStats season now db (dropPlayerTeams p teams) ∧
      ∀ res, collectPitcherStats season now db teams = some res →
        lookupTab res.1 p = some row) := by
  constructor
  · intro season now db teams p row hrow hyp
    exact runSeasonTeams_dropPlayer (batterParams season now) p row teams (db, 0) hrow hyp
  · intro season now db teams p row hrow hyp
    exact runSeasonTeams_dropPlayer (pitcherParams season now) p row teams (db, 0) hrow hyp

def c1Stat : BatStat :=
  { gamesPlayed := 100, plateAppearances := 450, atBats := 380, hits := 120,
    doubles := 25, triples := 1, homeRuns := 35, rbi := 80, runs := 90,
    stolenBases := 5, caughtStealing := 2, baseOnBalls := 65, strikeOuts := 110,
    totalBases := 228, avg := some (.str ".316"), obp := some (.str ".420"),
    slg := some (.str ".600"), ops := some (.num 1) }

def c1Entry : SRosterEntry BatStat :=
  { player_id := 1, player_name := "Aaron Judge", pos_abbrev := "CF",
    fetch := .ok { stats := [{ displayName := "season", stats := some c1Stat }],
                   side := "Right" } }

def c1Teams : List (STeamFetch BatStat) := [{ team_id := 147, roster := .ok [c1Entry] }]

def c1Row : BatterRow :=
  { player_name := "Aaron Judge", team_id := 147, position := "CF", season := "2026",
    games_played := 100, plate_appearances := 450, at_bats := 380, hits := 120,
    doubles := 25, triples := 1, home_runs := 35, rbi := 80, runs := 90,
    stolen_bases := 5, caught_stealing := 2, walks := 65, strikeouts := 110,
    batting_avg := 0, obp := 0, slg := 0, ops := 0, total_bases := 228,
    bats := "R", last_updated := "t0" }

theorem season_stats_skip_unchanged_witness :
    (collectBatterStats "2026" "t1" [(1, c1Row)] c1Teams =
      collectBatterStats "2026" "t1" [(1, c1Row)] (dropPlayerTeams 1 c1Teams)) ∧
    (∀ res, collectBatterStats "2026" "t1" [(1, c1Row)] c1Teams = some res →
      lookupTab res.1 1 = some c1Row) :=
  season_stats_skip_unchanged.1 "2026" "t1" [(1, c1Row)] c1Teams 1 c1Row
    (by rfl)
    (by
      intro t ht es hes e he hp sd hsd st hst
      simp only [c1Teams, List.mem_singleton] at ht
      subst ht
      cases hes
      simp only [c1Entry, List.mem_singleton] at he
      subst he
      cases hsd
      simp [findSeasonStat] at hst
      subst hst
      rfl)

/-- C10: the staleness gate queries stored `games_played` by player id only,
with no season condition: a stored row from a different season with the
same `games_played` still suppresses the write, and the old row (old season
label included) survives the run.  The gate is `false` exactly when a row
for the player id exists with equal `games_played`, whatever its season. -/
theorem season_stale_check_ignores_season :
    (∀ (season now : String) (db : List (ℤ × BatterRow))
        (teams : List (STeamFetch BatStat)) (p : ℤ) (row : BatterRow),
      lookupTab db p = some row → row.season ≠ season →
      (∀ t ∈ teams, ∀ es, t.roster = Except.ok es → ∀ e ∈ es, e.player_id = p →
        ∀ sd, e.fetch = Except.ok sd → ∀ st, findSeasonStat sd.stats = some st →
          st.gamesPlayed = row.games_played) →
      collectBatterStats season now db teams =
        collectBatterStats season now db (dropPlayerTeams p teams) ∧
      ∀ res, collectBatterStats season now db teams = some res →
        lookupTab res.1 p = some row ∧ row.season ≠ season) ∧
    (∀ (season now : String) (db : List (ℤ × PitcherRow))
        (teams : List (STeamFetch PitStat)) (p : ℤ) (row : PitcherRow),
      lookupTab db p = some row → row.season ≠ season →
      (∀ t ∈ teams, ∀ es, t.roster = Except.ok es → ∀ e ∈ es, e.player_id = p →
        ∀ sd, e.fetch = Except.ok sd → ∀ st, findSeasonStat sd.stats = some st →
          st.gamesPlayed = row.games_played) →
      collectPitcherStats season now db teams =
        collectPitcherStats season now db (dropPlayerTeams p teams) ∧
      ∀ res, collectPitcherStats season now db teams = some res →
        lookupTab res.1 p = some row ∧ row.season ≠ season) ∧
    (∀ (season now : String) (db : List (ℤ × BatterRow)) (p gp : ℤ),
      shouldUpdateRow (batterParams season now) db p gp = false ↔
        ∃ r, lookupTab db p = some r ∧ r.games_played = gp) ∧
    (∀ (season now : String) (db : List (ℤ × PitcherRow)) (p gp : ℤ),
      shouldUpdateRow (pitcherParams season now) db p gp = false ↔
        ∃ r, lookupTab db p = some r ∧ r.games_played = gp) := by
  refine ⟨?_, ?_, ?_, ?_⟩
  · intro season now db teams p row hrow hseason hyp
    obtain ⟨heq, hpres⟩ :=
      runSeasonTeams_dropPlayer (batterParams season now) p row teams (db, 0) hrow hyp
    exact ⟨heq, fun res h => ⟨hpres res h, hseason⟩⟩
  · intro season now db teams p row hrow hseason hyp
    obtain ⟨heq, hpres⟩ :=
      runSeasonTeams_dropPlayer (pitcherParams season now) p row teams (db, 0) hrow hyp
    exact ⟨heq, fun res h => ⟨hpres res h, hseason⟩⟩
  · intro season now db p gp
    unfold shouldUpdateRow
    cases h : lookupTab db p with
    | none => simp
    | some r => simp [batterParams]
  · intro season now db p gp
    unfold shouldUpdateRow
    cases h : lookupTab db p with
    | none => simp
    | some r => simp [pitcherParams]

def c10Stat : BatStat :=
  { gamesPlayed := 140, plateAppearances := 600, atBats := 520, hits := 150,
    doubles := 30, triples := 2, homeRuns := 28, rbi := 95, runs := 88,
    stolenBases := 11, caughtStealing := 3, baseOnBalls := 70, strikeOuts := 130,
    totalBases := 268, avg := some (.str ".288"), obp := some (.str ".370"),
    slg := some (.str ".515"), ops := some (.str ".885") }

def c10Entry : SRosterEntry BatStat :=
  { player_id := 7, player_name := "Old Season Guy", pos_abbrev := "1B",
    fetch := .ok { stats := [{ displayName := "season", stats := some c10Stat }],
                   side := "Left" } }

def c10Teams : List (STeamFetch BatStat) := [{ team_id := 111, roster := .ok [c10Entry] }]

def c10Row : BatterRow :=
  { player_name := "Old Season Guy", team_id := 111, position := "1B", season := "2025",
    games_played := 140, plate_appearances := 600, at_bats := 520, hits := 150,
    doubles := 30, triples := 2, home_runs := 28, rbi := 95, runs := 88,
    stolen_bases := 11, caught_stealing := 3, walks := 70, strikeouts := 130,
    batting_avg := 0, obp := 0, slg := 0, ops := 0, total_bases := 268,
    bats := "L", last_updated := "t0" }

theorem season_stale_check_ignores_season_witness :
    (collectBatterStats "2026" "t1" [(7, c10Row)] c10Teams =
      collectBatterStats "2026" "t1" [(7, c10Row)] (dropPlayerTeams 7 c10Teams)) ∧
    (∀ res, collectBatterStats "2026" "t1" [(7, c10Row)] c10Teams = some res →
      lookupTab res.1 7 = some c10Row ∧ c10Row.season ≠ "2026") :=
  season_stale_check_ignores_season.1 "2026" "t1" [(7, c10Row)] c10Teams 7 c10Row
    (by rfl)
    (by decide)
    (by
      intro t ht es hes e he hp sd hsd st hst
      simp only [c10Teams, List.mem_singleton] at ht
      subst ht
      cases hes
      simp only [c10Entry, List.mem_singleton] at he
      subst he
      cases hsd
      simp [findSeasonStat] at hst
      subst hst
      rfl)

end MLB

namespace MLB

theorem runSeasonEntries_append {σ ρ : Type} (P : SeasonParams σ ρ) (tid : ℤ) :
    ∀ (l1 l2 : List (SRosterEntry σ)) (s : List (ℤ × ρ) × ℕ),
    runSeasonEntries P tid s (l1 ++ l2) =
      match runSeasonEntries P tid s l1 with
      | none => none
      | some s' => runSeasonEntries P tid s' l2 := by
  intro l1
  induction l1 with
  | nil => intro l2 s; rfl
  | cons e l1 ih =>
    intro l2 s
    simp only [List.cons_append, runSeasonEntries]
    cases hpe : processSeasonEntry P tid s e with
    | none => rfl
    | some s₁ => exact ih l2 s₁

theorem runSeasonTeams_append {σ ρ : Type} (P : SeasonParams σ ρ) :
    ∀ (l1 l2 : List (STeamFetch σ)) (s : List (ℤ × ρ) × ℕ),
    runSeasonTeams P s (l1 ++ l2) =
      match runSeasonTeams P s l1 with
      | none => none
      | some s' => runSeasonTeams P s' l2 := by
  intro l1
  induction l1 with
  | nil => intro l2 s; rfl
  | cons t l1 ih =>
    intro l2 s
    cases hr : t.roster with
    | error m =>
      simp only [List.cons_append, runSeasonTeams, hr]
      exact ih l2 s
    | ok es =>
      cases hre : runSeasonEntries P t.team_id s es with
      | none => simp only [List.cons_append, runSeasonTeams, hr, hre]
      | some s₁ =>
        simp only [List.cons_append, runSeasonTeams, hr, hre]
        exact ih l2 s₁

theorem processSeasonEntry_errFetch {σ ρ : Type} (P : SeasonParams σ ρ) (tid : ℤ)
    (s : List (ℤ × ρ) × ℕ) (pid : ℤ) (nm pos m : String) :
    processSeasonEntry P tid s ⟨pid, nm, pos, .error m⟩ = some s := by
  unfold processSeasonEntry
  split <;> rfl

theorem runSeasonTeams_errTeam {σ ρ : Type} (P : SeasonParams σ ρ) :
    ∀ (ts1 ts2 : List (STeamFetch σ)) (s : List (ℤ × ρ) × ℕ) (tid : ℤ) (msg : String),
    runSeasonTeams P s (ts1 ++ ⟨tid, .error msg⟩ :: ts2) =
      runSeasonTeams P s (ts1 ++ ts2) := by
  intro ts1 ts2 s tid msg
  rw [runSeasonTeams_append, runSeasonTeams_append]
  cases runSeasonTeams P s ts1 with
  | none => rfl
  | some s' => simp only [runSeasonTeams]

theorem runSeasonTeams_errEntry {σ ρ : Type} (P : SeasonParams σ ρ) :
    ∀ (ts1 ts2 : List (STeamFetch σ)) (s : List (ℤ × ρ) × ℕ) (tid : ℤ)
      (r1 r2 : List (SRosterEntry σ)) (pid : ℤ) (nm pos m : String),
    runSeasonTeams P s (ts1 ++ ⟨tid, .ok (r1 ++ ⟨pid, nm, pos, .error m⟩ :: r2)⟩ :: ts2) =
      runSeasonTeams P s (ts1 ++ ⟨tid, .ok (r1 ++ r2)⟩ :: ts2) := by
  intro ts1 ts2 s tid r1 r2 pid nm pos m
  rw [runSeasonTeams_append, runSeasonTeams_append]
  cases runSeasonTeams P s ts1 with
  | none => rfl
  | some s' =>
    simp only [runSeasonTeams]
    have he : runSeasonEntries P tid s' (r1 ++ ⟨pid, nm, pos, .error m⟩ :: r2) =
        runSeasonEntries P tid s' (r1 ++ r2) := by
      rw [runSeasonEntries_append, runSeasonEntries_append]
      cases runSeasonEntries P tid s' r1 with
      | none => rfl
      | some s'' =>
        simp only [runSeasonEntries, processSeasonEntry_errFetch]
    rw [he]

/-- C4: a per-unit upstream exception never aborts a season-stat batch: a
team whose roster fetch raises, or a roster entry whose stat fetch raises,
contributes nothing, and the run (result table and returned count) equals
the same run with that unit removed — for both collectors. -/
theorem season_collect_partial_failure :
    (∀ (season now : String) (db : List (ℤ × BatterRow))
        (ts1 ts2 : List (STeamFetch BatStat)) (tid : ℤ) (msg : String),
      collectBatterStats season now db (ts1 ++ ⟨tid, .error msg⟩ :: ts2) =
        collectBatterStats season now db (ts1 ++ ts2)) ∧
    (∀ (season now : String) (db : List (ℤ × PitcherRow))
        (ts1 ts2 : List (STeamFetch PitStat)) (tid : ℤ) (msg : String),
      collectPitcherStats season now db (ts1 ++ ⟨tid, .error msg⟩ :: ts2) =
        collectPitcherStats season now db (ts1 ++ ts2)) ∧
    (∀ (season now : String) (db : List (ℤ × BatterRow))
        (ts1 ts2 : List (STeamFetch BatStat)) (tid : ℤ)
        (r1 r2 : List (SRosterEntry BatStat)) (pid : ℤ) (nm pos m : String),
      collectBatterStats season now db
          (ts1 ++ ⟨tid, .ok (r1 ++ ⟨pid, nm, pos, .error m⟩ :: r2)⟩ :: ts2) =
        collectBatterStats season now db (ts1 ++ ⟨tid, .ok (r1 ++ r2)⟩ :: ts2)) ∧
    (∀ (season now : String) (db : List (ℤ × PitcherRow))
        (ts1 ts2 : List (STeamFetch PitStat)) (tid : ℤ)
        (r1 r2 : List (SRosterEntry PitStat)) (pid : ℤ) (nm pos m : String),
      collectPitcherStats season now db
          (ts1 ++ ⟨tid, .ok (r1 ++ ⟨pid, nm, pos, .error m⟩ :: r2)⟩ :: ts2) =
        collectPitcherStats season now db (ts1 ++ ⟨tid, .ok (r1 ++ r2)⟩ :: ts2)) := by
  refine ⟨?_, ?_, ?_, ?_⟩
  · intro season now db ts1 ts2 tid msg
    exact runSeasonTeams_errTeam (batterParams season now) ts1 ts2 (db, 0) tid msg
  · intro season now db ts1 ts2 tid msg
    exact runSeasonTeams_errTeam (pitcherParams season now) ts1 ts2 (db, 0) tid msg
  · intro season now db ts1 ts2 tid r1 r2 pid nm pos m
    exact runSeasonTeams_errEntry (batterParams season now) ts1 ts2 (db, 0) tid r1 r2 pid nm pos m
  · intro season now db ts1 ts2 tid r1 r2 pid nm pos m
    exact runSeasonTeams_errEntry (pitcherParams season now) ts1 ts2 (db, 0) tid r1 r2 pid nm pos m

end MLB

namespace MLB

theorem natOfDigits_zero_cons (l : List Char) : natOfDigits ('0' :: l) = natOfDigits l := by
  simp [natOfDigits]

theorem ofParts_zero_head (parts : List (List Char)) (q : ℚ)
    (h : ofParts ([] :: parts) = some q) : ofParts (['0'] :: parts) = some q := by
  cases parts with
  | nil => simp [ofParts] at h
  | cons f fs =>
    cases fs with
    | nil =>
      simp only [ofParts] at h ⊢
      split at h
      · next hc =>
        cases h
        have hlen : (0 : ℕ) < ['0'].length + f.length := by simp
        have hdig : allDigits ['0'] = true := by decide
        rw [if_pos ⟨hlen, hdig, hc.2.2⟩]
        have h0 : natOfDigits ['0'] = 0 := by decide
        have h1 : natOfDigits ([] : List Char) = 0 := rfl
        rw [h0, h1]
      · cases h
    | cons f2 fs2 => simp [ofParts] at h

theorem parseDecPos_zero_dot (l : List Char) (q : ℚ)
    (h : parseDecPos ('.' :: l) = some q) :
    parseDecPos ('0' :: '.' :: l) = some q := by
  have hsplit : splitDotAux ('.' :: l) = [] :: splitDotAux l := by
    simp [splitDotAux]
  have hsplit0 : splitDotAux ('0' :: '.' :: l) = ['0'] :: splitDotAux l := by
    rw [splitDotAux, if_neg (by decide), hsplit]
  unfold parseDecPos at h ⊢
  rw [hsplit0]
  rw [hsplit] at h
  exact ofParts_zero_head _ q h

theorem parseDecCore_zero_dot (l : List Char) (q : ℚ)
    (h : parseDecCore ('.' :: l) = some q) :
    parseDecCore ('0' :: '.' :: l) = some q :=
  parseDecPos_zero_dot l q h

end MLB

namespace MLB

/-- C8 (amended): for every batter rate-stat field fetched as a string, the
stored value is the decimal value of the string after rewriting its first
"." to "0." (`replace(".", "0.", 1)`); when the string starts with the dot
(the ".316" form) this equals the proper decimal value of the string;
numeric values are stored unchanged.  (For strings with a nonempty integer
part, e.g. an ops of "1.020", the stored value is not the proper decimal
value — see the counterexample.) -/
theorem batter_rate_string_normalization :
    (∀ s : String, normRateField (some (.str s)) = parseDec (pyReplaceDotOnce s)) ∧
    (∀ q : ℚ, normRateField (some (.num q)) = some q) ∧
    (∀ (s : String) (q : ℚ), s.data.head? = some '.' → parseDec s = some q →
      normRateField (some (.str s)) = some q) ∧
    (∀ (season now : String) (tid : ℤ) (e : SRosterEntry BatStat)
        (sd : SeasonData BatStat) (st : BatStat) (r : BatterRow),
      (batterParams season now).mkRow tid e sd st = some r →
      normRateField st.avg = some r.batting_avg ∧
      normRateField st.obp = some r.obp ∧
      normRateField st.slg = some r.slg ∧
      normRateField st.ops = some r.ops) := by
  refine ⟨fun s => rfl, fun q => rfl, ?_, ?_⟩
  · intro s q hh hp
    show parseDec (pyReplaceDotOnce s) = some q
    cases hd : s.data with
    | nil =>
      rw [hd] at hh
      cases hh
    | cons c cs =>
      rw [hd] at hh
      simp only [List.head?, Option.some.injEq] at hh
      subst hh
      have hstep : parseDec (pyReplaceDotOnce s) = parseDecCore (replFirstDotAux s.data) := rfl
      rw [hstep, hd]
      have hrepl : replFirstDotAux ('.' :: cs) = '0' :: '.' :: cs := by
        simp [replFirstDotAux]
      rw [hrepl]
      apply parseDecCore_zero_dot
      have hp' : parseDecCore s.data = some q := hp
      rw [hd] at hp'
      exact hp'
  · intro season now tid e sd st r hm
    simp only [batterParams] at hm
    cases h1 : normRateField st.avg with
    | none => simp [h1] at hm
    | some a =>
      cases h2 : normRateField st.obp with
      | none => simp [h1, h2] at hm
      | some o =>
        cases h3 : normRateField st.slg with
        | none => simp [h1, h2, h3] at hm
        | some sl =>
          cases h4 : normRateField st.ops with
          | none => simp [h1, h2, h3, h4] at hm
          | some op =>
            simp only [h1, h2, h3, h4, Option.bind_eq_bind, Option.some_bind,
              Option.pure_def, Option.some.injEq] at hm
            subst hm
            exact ⟨rfl, rfl, rfl, rfl⟩

def c8Stat : BatStat :=
  { gamesPlayed := 80, plateAppearances := 350, atBats := 300, hits := 95,
    doubles := 20, triples := 1, homeRuns := 22, rbi := 60, runs := 55,
    stolenBases := 4, caughtStealing := 1, baseOnBalls := 45, strikeOuts := 70,
    totalBases := 183, avg := some (.str ".316"), obp := some (.str ".420"),
    slg := some (.str ".600"), ops := some (.str "1.020") }

def c8Entry : SRosterEntry BatStat :=
  { player_id := 9, player_name := "Big Ops", pos_abbrev := "RF",
    fetch := .ok { stats := [{ displayName := "season", stats := some c8Stat }],
                   side := "Right" } }

def c8Teams : List (STeamFetch BatStat) := [{ team_id := 121, roster := .ok [c8Entry] }]

theorem batter_rate_string_counterexample :
    ((collectBatterStats "2026" "t1" [] c8Teams).map
        (fun res => (lookupTab res.1 9).map BatterRow.ops)) =
      some (some (Rat.divInt 10020 1000)) ∧
    parseDec "1.020" = some (Rat.divInt 1020 1000) ∧
    (Rat.divInt 10020 1000 : ℚ) ≠ Rat.divInt 1020 1000 := by
  refine ⟨?_, by decide, by decide⟩
  have h1 : normRateField (some (JsonVal.str ".316")) = some (Rat.divInt 316 1000) := by decide
  have h2 : normRateField (some (JsonVal.str ".420")) = some (Rat.divInt 420 1000) := by decide
  have h3 : normRateField (some (JsonVal.str ".600")) = some (Rat.divInt 600 1000) := by decide
  have h4 : normRateField (some (JsonVal.str "1.020")) = some (Rat.divInt 10020 1000) := by decide
  have hk : (("RF" : String) != "P") = true := by decide
  simp [collectBatterStats, runSeasonTeams, runSeasonEntries, processSeasonEntry, batterParams,
    shouldUpdateRow, lookupTab, upsertTab, findSeasonStat, dictGetD,
    c8Teams, c8Entry, c8Stat, h1, h2, h3, h4, hk]

theorem batter_rate_string_normalization_witness :
    normRateField (some (.str ".316")) = some (Rat.divInt 316 1000) :=
  batter_rate_string_normalization.2.2.1 ".316" (Rat.divInt 316 1000) (by decide) (by decide)

end MLB

namespace MLB

/-! ## Schedule collector (src/collectors/schedule.py) -/

/-- A `schedule` row (columns of the INSERT at schedule.py:79-87 except the
`game_id` key). -/
structure ScheduleRow where
  game_date : String
  season : String
  home_team_id : ℤ
  away_team_id : ℤ
  home_abbr : String
  away_abbr : String
  venue_id : Option ℤ
  home_score : Option ℤ
  away_score : Option ℤ
  status : String
  home_probable_pitcher_id : Option ℤ
  away_probable_pitcher_id : Option ℤ
deriving DecidableEq

/-- One game dict from `client.get_schedule`, with the fields the collector
reads (schedule.py:55-77). -/
structure GameInput where
  game_id : ℤ
  game_date : String
  home_id : ℤ
  away_id : ℤ
  venue_id : Option ℤ
  home_score : Option ℤ
  away_score : Option ℤ
  status : String
  home_probable_pitcher : String
  away_probable_pitcher : String
deriving DecidableEq

/-- schedule.py:12-26. -/
def STATUS_MAP : List (String × String) :=
  [("Final", "Final"), ("Game Over", "Final"), ("Completed Early", "Final"),
   ("Scheduled", "Scheduled"), ("Pre-Game", "Scheduled"), ("Warmup", "Scheduled"),
   ("Postponed", "Postponed"), ("Suspended", "Postponed"), ("Cancelled", "Postponed"),
   ("In Progress", "In Progress"), ("Manager Challenge", "In Progress"),
   ("Delayed", "In Progress"), ("Delayed Start", "Scheduled")]

/-- `STATUS_MAP.get(raw_status, raw_status)` (schedule.py:73): an unmapped
raw label passes through unchanged. -/
def statusNormalize (raw : String) : String := dictGetD STATUS_MAP raw raw

/-- `_resolve_pitcher_id` (schedule.py:145-162): empty name resolves to
null; otherwise the (determinised) `statsapi.lookup_player` outcome, where
`none` covers an exception, an empty result list, and a missing id. -/
def resolvePitcherId (lookup : String → Option ℤ) (name : String) : Option ℤ :=
  if name = "" then none else lookup name

/-- Build the row stored for one game (schedule.py:55-87). -/
def mkScheduleRow (teams : List (ℤ × String)) (lookup : String → Option ℤ)
    (g : GameInput) : ScheduleRow :=
  { game_date := g.game_date
    season := if g.game_date = "" then "" else g.game_date.take 4
    home_team_id := g.home_id
    away_team_id := g.away_id
    home_abbr := (lookupTab teams g.home_id).getD ""
    away_abbr := (lookupTab teams g.away_id).getD ""
    venue_id := g.venue_id
    home_score := g.home_score
    away_score := g.away_score
    status := statusNormalize g.status
    home_probable_pitcher_id := resolvePitcherId lookup g.home_probable_pitcher
    away_probable_pitcher_id := resolvePitcherId lookup g.away_probable_pitcher }

def scheduleGo (teams : List (ℤ × String)) (lookup : String → Option ℤ) :
    List (ℤ × ScheduleRow) × ℕ → List GameInput → List (ℤ × ScheduleRow) × ℕ
  | s, [] => s
  | (t, c), g :: gs =>
    scheduleGo teams lookup (upsertTab t g.game_id (mkScheduleRow teams lookup g), c + 1) gs

/-- `ScheduleCollector.collect` (schedule.py:36-95): upsert every fetched
game by game id and count it. -/
def scheduleCollect (teams : List (ℤ × String)) (lookup : String → Option ℤ)
    (db : List (ℤ × ScheduleRow)) (games : List GameInput) :
    List (ℤ × ScheduleRow) × ℕ :=
  scheduleGo teams lookup (db, 0) games

theorem scheduleGo_lookup (teams : List (ℤ × String)) (lookup : String → Option ℤ) :
    ∀ (games : List GameInput) (t : List (ℤ × ScheduleRow)) (c : ℕ) (gid : ℤ)
      (r : ScheduleRow),
    lookupTab (scheduleGo teams lookup (t, c) games).1 gid = some r →
    (∃ g ∈ games, r = mkScheduleRow teams lookup g) ∨ lookupTab t gid = some r := by
  intro games
  induction games with
  | nil => intro t c gid r h; right; exact h
  | cons g gs ih =>
    intro t c gid r h
    rcases ih (upsertTab t g.game_id (mkScheduleRow teams lookup g)) (c + 1) gid r h
      with hin | hbase
    · obtain ⟨g', hg', hr⟩ := hin
      exact Or.inl ⟨g', by simp [hg'], hr⟩
    · by_cases hgid : g.game_id = gid
      · rw [← hgid, lookupTab_upsertTab_self] at hbase
        cases hbase
        exact Or.inl ⟨g, by simp, rfl⟩
      · rw [lookupTab_upsertTab_ne t g.game_id gid _ hgid] at hbase
        exact Or.inr hbase

/-- C3 (amended): the stored status of every row written by
`ScheduleCollector.collect` is the `STATUS_MAP` normalization of the game's
raw status; mapped raw labels always yield one of the four normalized
values, and every other raw label is stored verbatim (passthrough), so the
four-value invariant holds only for raw statuses in `STATUS_MAP`'s domain. -/
theorem schedule_status_normalized :
    (∀ raw ∈ STATUS_MAP.map Prod.fst,
      statusNormalize raw ∈ (["Scheduled", "In Progress", "Postponed", "Final"] : List String)) ∧
    (∀ raw : String,
      statusNormalize raw ∈ (["Scheduled", "In Progress", "Postponed", "Final"] : List String) ∨
      statusNormalize raw = raw) ∧
    (∀ (teams : List (ℤ × String)) (lookup : String → Option ℤ) (g : GameInput),
      (mkScheduleRow teams lookup g).status = statusNormalize g.status) ∧
    (∀ (teams : List (ℤ × String)) (lookup : String → Option ℤ)
        (db : List (ℤ × ScheduleRow)) (games : List GameInput) (gid : ℤ) (r : ScheduleRow),
      lookupTab (scheduleCollect teams lookup db games).1 gid = some r →
      (∃ g ∈ games, r = mkScheduleRow teams lookup g) ∨ lookupTab db gid = some r) := by
  refine ⟨by decide, ?_, fun teams lookup g => rfl, ?_⟩
  · intro raw
    have hall : ∀ p ∈ STATUS_MAP,
        p.2 ∈ (["Scheduled", "In Progress", "Postponed", "Final"] : List String) := by decide
    unfold statusNormalize dictGetD
    cases hf : STATUS_MAP.find? (fun p => p.1 == raw) with
    | none => right; rfl
    | some p => exact Or.inl (hall p (List.mem_of_find?_eq_some hf))
  · intro teams lookup db games gid r h
    exact scheduleGo_lookup teams lookup games db 0 gid r h

theorem schedule_status_claim_counterexample :
    ((lookupTab (scheduleCollect [] (fun _ => none) []
        [{ game_id := 5, game_date := "2026-05-01", home_id := 1, away_id := 2,
           venue_id := none, home_score := none, away_score := none,
           status := "Suspended: Rain", home_probable_pitcher := "",
           away_probable_pitcher := "" }]).1 5).map ScheduleRow.status) =
      some "Suspended: Rain" ∧
    "Suspended: Rain" ∉ (["Scheduled", "In Progress", "Postponed", "Final"] : List String) := by
  constructor
  · decide
  · decide

theorem schedule_status_normalized_witness :
    statusNormalize "Game Over" ∈
      (["Scheduled", "In Progress", "Postponed", "Final"] : List String) :=
  schedule_status_normalized.1 "Game Over" (by decide)

end MLB

namespace MLB

/-! ## Game-log collectors (batter.py:143-279, pitcher.py:165-302)

`BatterGameLogCollector.collect` and `PitcherGameLogCollector.collect`
share one shape: for every player already in the season-stat table, read
the last stored game date for (player, season), fetch the game log (a
failure skips the player), and for each fetched game skip it when its date
is `≤` the last stored date, otherwise `INSERT OR IGNORE` a row keyed by
the `UNIQUE(game_id, player_id)` constraint (init_db.py:164, 206), counting
only actual inserts (`cursor.rowcount > 0`).  The shared shape is
`gameLogCollect`, parameterised by the function that builds the
collector-specific rest of the row. -/

/-- One game-log split: its date, its `game.gamePk` and its `stat` dict. -/
structure GameEntry (σ : Type) where
  date : String
  gamePk : ℤ
  stat : σ
deriving DecidableEq

/-- A game-log row: the fields shared by both log tables (and used by the
key and the incremental queries), plus the collector-specific rest. -/
structure LogRow (π : Type) where
  player_id : ℤ
  game_id : ℤ
  game_date : String
  season : String
  rest : π
deriving DecidableEq

/-- One row of the driving `SELECT player_id, player_name, team_id` over
the season-stat table, together with the (determinised) outcome of the
game-log fetch for that player. -/
structure PlayerLogFetch (σ : Type) where
  player_id : ℤ
  player_name : String
  team_id : ℤ
  games : Except String (List (GameEntry σ))

/-- Does the table hold a row with this `(game_id, player_id)` pair? -/
def pairIn {π : Type} (t : List (LogRow π)) (g p : ℤ) : Bool :=
  t.any (fun r => r.game_id == g && r.player_id == p)

def maxDate : List String → Option String
  | [] => none
  | d :: ds =>
    match maxDate ds with
    | none => some d
    | some m => some (max d m)

/-- `_get_last_game_date` (batter.py:237-244, pitcher.py:260-267):
`SELECT MAX(game_date) ... WHERE player_id = ? AND season = ?`, with a
NULL (no rows) or empty-string maximum treated as "no last date". -/
def lastGameDate {π : Type} (t : List (LogRow π)) (pid : ℤ) (season : String) :
    Option String :=
  match maxDate ((t.filter (fun r => r.player_id == pid && r.season == season)).map
      (fun r => r.game_date)) with
  | none => none
  | some d => if d = "" then none else some d

/-- `if last_date and game_date <= last_date: continue`. -/
def dateSkip (lastD : Option String) (d : String) : Bool :=
  match lastD with
  | none => false
  | some ld => decide (d ≤ ld)

/-- One non-skipped game: `INSERT OR IGNORE` under the
`UNIQUE(game_id, player_id)` constraint — no existing row with the pair
means an insert and `cursor.rowcount > 0`, so the count is incremented;
an existing row means the insert is ignored and the count unchanged. -/
def logStep {σ π : Type} (mk : ℤ → ℤ → GameEntry σ → π) (season : String)
    (pid tid : ℤ) (t : List (LogRow π)) (c : ℕ) (g : GameEntry σ) :
    List (LogRow π) × ℕ :=
  if pairIn t g.gamePk pid then (t, c)
  else ({ player_id := pid, game_id := g.gamePk, game_date := g.date,
          season := season, rest := mk pid tid g } :: t, c + 1)

def processLogGames {σ π : Type} (mk : ℤ → ℤ → GameEntry σ → π) (season : String)
    (pid tid : ℤ) (lastD : Option String) :
    List (LogRow π) × ℕ → List (GameEntry σ) → List (LogRow π) × ℕ
  | s, [] => s
  | (t, c), g :: gs =>
    if dateSkip lastD g.date then processLogGames mk season pid tid lastD (t, c) gs
    else processLogGames mk season pid tid lastD (logStep mk season pid tid t c g) gs

def processPlayerLog {σ π : Type} (mk : ℤ → ℤ → GameEntry σ → π) (season : String)
    (s : List (LogRow π) × ℕ) (p : PlayerLogFetch σ) : List (LogRow π) × ℕ :=
  let lastD := lastGameDate s.1 p.player_id season
  match p.games with
  | .error _ => s
  | .ok gs => processLogGames mk season p.player_id p.team_id lastD s gs

def gameLogGo {σ π : Type} (mk : ℤ → ℤ → GameEntry σ → π) (season : String) :
    List (LogRow π) × ℕ → List (PlayerLogFetch σ) → List (LogRow π) × ℕ
  | s, [] => s
  | s, p :: ps => gameLogGo mk season (processPlayerLog mk season s p) ps

/-- The shared `collect` loop of both game-log collectors, starting from a
zero count. -/
def gameLogCollect {σ π : Type} (mk : ℤ → ℤ → GameEntry σ → π) (season : String)
    (t : List (LogRow π)) (players : List (PlayerLogFetch σ)) :
    List (LogRow π) × ℕ :=
  gameLogGo mk season (t, 0) players

/-- `_get_game_context` (batter.py:246-260, pitcher.py:269-283). -/
def getGameContext (sched : List (ℤ × ScheduleRow)) (game_id team_id : ℤ) :
    Option ℤ × Option String × Option ℤ × Option ℤ :=
  match lookupTab sched game_id with
  | none => (none, none, none, none)
  | some r =>
    if team_id = r.home_team_id then (some r.away_team_id, some r.away_abbr, some 1, r.venue_id)
    else (some r.home_team_id, some r.home_abbr, some 0, r.venue_id)

/-- Per-game batting stat fields read at batter.py:210-221. -/
structure BatGameStat where
  plateAppearances : ℤ
  atBats : ℤ
  hits : ℤ
  doubles : ℤ
  triples : ℤ
  homeRuns : ℤ
  rbi : ℤ
  runs : ℤ
  stolenBases : ℤ
  baseOnBalls : ℤ
  strikeOuts : ℤ
  totalBases : ℤ
deriving DecidableEq

/-- The non-key columns of a `batter_game_logs` row (batter.py:198-225). -/
structure BatterLogRest where
  team_id : ℤ
  opponent_id : Option ℤ
  opponent_abbr : Option String
  is_home : Option ℤ
  batting_order : Option ℤ
  plate_appearances : ℤ
  at_bats : ℤ
  hits : ℤ
  doubles : ℤ
  triples : ℤ
  home_runs : ℤ
  rbi : ℤ
  runs : ℤ
  stolen_bases : ℤ
  walks : ℤ
  strikeouts : ℤ
  total_bases : ℤ
  opposing_pitcher_id : Option ℤ
  opposing_pitcher_hand : Option String
  venue_id : Option ℤ
deriving DecidableEq

def mkBatterLogRest (sched : List (ℤ × ScheduleRow)) (_pid tid : ℤ)
    (g : GameEntry BatGameStat) : BatterLogRest :=
  let ctx := getGameContext sched g.gamePk tid
  { team_id := tid
    opponent_id := ctx.1
    opponent_abbr := ctx.2.1
    is_home := ctx.2.2.1
    batting_order := none
    plate_appearances := g.stat.plateAppearances
    at_bats := g.stat.atBats
    hits := g.stat.hits
    doubles := g.stat.doubles
    triples := g.stat.triples
    home_runs := g.stat.homeRuns
    rbi := g.stat.rbi
    runs := g.stat.runs
    stolen_bases := g.stat.stolenBases
    walks := g.stat.baseOnBalls
    strikeouts := g.stat.strikeOuts
    total_bases := g.stat.totalBases
    opposing_pitcher_id := none
    opposing_pitcher_hand := none
    venue_id := ctx.2.2.2 }

/-- `BatterGameLogCollector.collect` (batter.py:151-235) over determinised
fetch results, for a fixed target season. -/
def batterGameLogCollect (season : String) (sched : List (ℤ × ScheduleRow))
    (db : List (LogRow BatterLogRest)) (players : List (PlayerLogFetch BatGameStat)) :
    List (LogRow BatterLogRest) × ℕ :=
  gameLogCollect (mkBatterLogRest sched) season db players

/-- Per-game pitching stat fields read at pitcher.py:219-246;
`inningsPitched` carries the already-parsed float. -/
structure PitGameStat where
  inningsPitched : ℚ
  gamesStarted : ℤ
  hits : ℤ
  runs : ℤ
  earnedRuns : ℤ
  baseOnBalls : ℤ
  strikeOuts : ℤ
  homeRuns : ℤ
  numberOfPitches : Option ℤ
  pitchesThrown : Option ℤ
deriving DecidableEq

/-- The non-key columns of a `pitcher_game_logs` row (pitcher.py:228-248). -/
structure PitcherLogRest where
  team_id : ℤ
  opponent_id : Option ℤ
  opponent_abbr : Option String
  is_home : Option ℤ
  is_start : ℤ
  innings_pitched : ℚ
  outs_recorded : ℤ
  hits_allowed : ℤ
  runs_allowed : ℤ
  earned_runs : ℤ
  walks_allowed : ℤ
  strikeouts : ℤ
  home_runs_allowed : ℤ
  pitches_thrown : Option ℤ
  venue_id : Option ℤ
deriving DecidableEq

/-- `stat.get("numberOfPitches") or stat.get("pitchesThrown")`: Python `or`
falls through on `None` and on the falsy `0`. -/
def firstTruthy (a b : Option ℤ) : Option ℤ :=
  match a with
  | none => b
  | some x => if x = 0 then b else some x

def mkPitcherLogRest (sched : List (ℤ × ScheduleRow)) (_pid tid : ℤ)
    (g : GameEntry PitGameStat) : PitcherLogRest :=
  let ctx := getGameContext sched g.gamePk tid
  { team_id := tid
    opponent_id := ctx.1
    opponent_abbr := ctx.2.1
    is_home := ctx.2.2.1
    is_start := if 0 < g.stat.gamesStarted then 1 else 0
    innings_pitched := g.stat.inningsPitched
    outs_recorded := ipToOutsF g.stat.inningsPitched
    hits_allowed := g.stat.hits
    runs_allowed := g.stat.runs
    earned_runs := g.stat.earnedRuns
    walks_allowed := g.stat.baseOnBalls
    strikeouts := g.stat.strikeOuts
    home_runs_allowed := g.stat.homeRuns
    pitches_thrown := firstTruthy g.stat.numberOfPitches g.stat.pitchesThrown
    venue_id := ctx.2.2.2 }

/-- `PitcherGameLogCollector.collect` (pitcher.py:173-258) over
determinised fetch results, for a fixed target season. -/
def pitcherGameLogCollect (season : String) (sched : List (ℤ × ScheduleRow))
    (db : List (LogRow PitcherLogRest)) (players : List (PlayerLogFetch PitGameStat)) :
    List (LogRow PitcherLogRest) × ℕ :=
  gameLogCollect (mkPitcherLogRest sched) season db players

/-- No two rows share a `(game_id, player_id)` pair — the table's UNIQUE
constraint. -/
def PairwiseUniqueLog {π : Type} (t : List (LogRow π)) : Prop :=
  t.Pairwise (fun a b => ¬(a.game_id = b.game_id ∧ a.player_id = b.player_id))

end MLB

namespace MLB

theorem str_empty_le (s : String) : "" ≤ s := by
  rw [String.le_iff_toList_le]
  show ([] : List Char) ≤ s.toList
  cases s.toList with
  | nil => exact le_rfl
  | cons c cs => exact le_of_lt (List.nil_lt_cons c cs)

theorem str_le_empty (s : String) (h : s ≤ "") : s = "" :=
  le_antisymm h (str_empty_le s)

theorem maxDate_mem : ∀ (l : List String) (m : String), maxDate l = some m → m ∈ l := by
  intro l
  induction l with
  | nil => intro m h; cases h
  | cons x xs ih =>
    intro m h
    cases hm : maxDate xs with
    | none =>
      rw [maxDate, hm] at h
      cases h
      exact List.mem_cons_self x xs
    | some m0 =>
      rw [maxDate, hm] at h
      cases h
      rcases max_choice x m0 with h1 | h1
      · rw [h1]; exact List.mem_cons_self x xs
      · rw [h1]; exact List.mem_cons_of_mem x (ih m0 hm)

theorem maxDate_le_of_mem : ∀ (l : List String) (d : String), d ∈ l →
    ∃ m, maxDate l = some m ∧ d ≤ m := by
  intro l
  induction l with
  | nil => intro d h; cases h
  | cons x xs ih =>
    intro d hd
    cases hm : maxDate xs with
    | none =>
      have hx : maxDate (x :: xs) = some x := by rw [maxDate, hm]
      rcases List.mem_cons.mp hd with rfl | hxs
      · exact ⟨_, hx, le_refl _⟩
      · obtain ⟨m, hm', _⟩ := ih d hxs
        rw [hm] at hm'
        cases hm'
    | some m0 =>
      have hx : maxDate (x :: xs) = some (max x m0) := by rw [maxDate, hm]
      rcases List.mem_cons.mp hd with rfl | hxs
      · exact ⟨_, hx, le_max_left _ _⟩
      · obtain ⟨m, hm', hdm⟩ := ih d hxs
        rw [hm] at hm'
        cases hm'
        exact ⟨_, hx, le_trans hdm (le_max_right _ _)⟩

theorem maxDate_mono (l l' : List String) (hsub : l ⊆ l') (m : String)
    (h : maxDate l = some m) : ∃ m', maxDate l' = some m' ∧ m ≤ m' :=
  maxDate_le_of_mem l' m (hsub (maxDate_mem l m h))

theorem logDates_mono {π : Type} (t t' : List (LogRow π)) (hsub : t ⊆ t')
    (pid : ℤ) (season : String) :
    ((t.filter (fun r => r.player_id == pid && r.season == season)).map
        (fun r => r.game_date)) ⊆
      ((t'.filter (fun r => r.player_id == pid && r.season == season)).map
        (fun r => r.game_date)) := by
  intro d hd
  rw [List.mem_map] at hd ⊢
  obtain ⟨r, hr, hdr⟩ := hd
  rw [List.mem_filter] at hr
  exact ⟨r, List.mem_filter.mpr ⟨hsub hr.1, hr.2⟩, hdr⟩

theorem lastGameDate_mono {π : Type} (t t' : List (LogRow π)) (hsub : t ⊆ t')
    (pid : ℤ) (season : String) (d : String)
    (h : lastGameDate t pid season = some d) :
    ∃ d', lastGameDate t' pid season = some d' ∧ d ≤ d' := by
  unfold lastGameDate at h
  split at h
  · cases h
  · next m hm =>
    split at h
    · cases h
    · next hne =>
      cases h
      obtain ⟨m', hm', hle⟩ :=
        maxDate_mono _ _ (logDates_mono t t' hsub pid season) d hm
      refine ⟨m', ?_, hle⟩
      have hm'ne : m' ≠ "" := by
        intro hc
        rw [hc] at hle
        exact hne (str_le_empty d hle)
      unfold lastGameDate
      rw [hm']
      show (if m' = "" then none else some m') = some m'
      rw [if_neg hm'ne]

end MLB

namespace MLB

theorem logStep_subset {σ π : Type} (mk : ℤ → ℤ → GameEntry σ → π) (season : String)
    (pid tid : ℤ) (t : List (LogRow π)) (c : ℕ) (g : GameEntry σ) :
    t ⊆ (logStep mk season pid tid t c g).1 := by
  unfold logStep
  by_cases hpi : pairIn t g.gamePk pid = true
  · rw [if_pos hpi]; exact List.Subset.refl t
  · rw [if_neg hpi]; exact fun a ha => List.mem_cons_of_mem _ ha

theorem processLogGames_subset {σ π : Type} (mk : ℤ → ℤ → GameEntry σ → π)
    (season : String) (pid tid : ℤ) (lastD : Option String) :
    ∀ (gs : List (GameEntry σ)) (t : List (LogRow π)) (c : ℕ),
    t ⊆ (processLogGames mk season pid tid lastD (t, c) gs).1 := by
  intro gs
  induction gs with
  | nil => intro t c; exact List.Subset.refl t
  | cons g gs ih =>
    intro t c
    by_cases hsk : dateSkip lastD g.date = true
    · simp only [processLogGames]
      rw [if_pos hsk]
      exact ih t c
    · simp only [processLogGames]
      rw [if_neg hsk]
      exact List.Subset.trans (logStep_subset mk season pid tid t c g)
        (ih (logStep mk season pid tid t c g).1 (logStep mk season pid tid t c g).2)

theorem processPlayerLog_subset {σ π : Type} (mk : ℤ → ℤ → GameEntry σ → π)
    (season : String) (s : List (LogRow π) × ℕ) (p : PlayerLogFetch σ) :
    s.1 ⊆ (processPlayerLog mk season s p).1 := by
  unfold processPlayerLog
  cases hg : p.games with
  | error m => exact List.Subset.refl _
  | ok gs => exact processLogGames_subset mk season p.player_id p.team_id _ gs s.1 s.2

theorem gameLogGo_subset {σ π : Type} (mk : ℤ → ℤ → GameEntry σ → π) (season : String) :
    ∀ (ps : List (PlayerLogFetch σ)) (s : List (LogRow π) × ℕ),
    s.1 ⊆ (gameLogGo mk season s ps).1 := by
  intro ps
  induction ps with
  | nil => intro s; exact List.Subset.refl _
  | cons p ps ih =>
    intro s
    simp only [gameLogGo]
    exact List.Subset.trans (processPlayerLog_subset mk season s p) (ih _)

/-- After some run, a player is "done" relative to a table: every game of a
successful fetch either has its `(game_id, player_id)` pair stored or is
date-skipped by the stored last date. -/
def LogDone {σ π : Type} (season : String) (t : List (LogRow π))
    (p : PlayerLogFetch σ) : Prop :=
  ∀ gs, p.games = .ok gs → ∀ g ∈ gs,
    pairIn t g.gamePk p.player_id = true ∨
    ∃ d, lastGameDate t p.player_id season = some d ∧ g.date ≤ d

theorem pairIn_mono {π : Type} (t t' : List (LogRow π)) (hsub : t ⊆ t') (g p : ℤ)
    (h : pairIn t g p = true) : pairIn t' g p = true := by
  rw [pairIn, List.any_eq_true] at h ⊢
  obtain ⟨r, hr, hpr⟩ := h
  exact ⟨r, hsub hr, hpr⟩

theorem logDone_mono {σ π : Type} (season : String) (t t' : List (LogRow π))
    (hsub : t ⊆ t') (p : PlayerLogFetch σ) (h : LogDone season t p) :
    LogDone season t' p := by
  intro gs hgs g hg
  rcases h gs hgs g hg with hp | ⟨d, hd, hle⟩
  · exact Or.inl (pairIn_mono t t' hsub _ _ hp)
  · obtain ⟨d', hd', hdd⟩ := lastGameDate_mono t t' hsub p.player_id season d hd
    exact Or.inr ⟨d', hd', le_trans hle hdd⟩

theorem processLogGames_covers {σ π : Type} (mk : ℤ → ℤ → GameEntry σ → π)
    (season : String) (pid tid : ℤ) (lastD : Option String) :
    ∀ (gs : List (GameEntry σ)) (t : List (LogRow π)) (c : ℕ), ∀ g ∈ gs,
    pairIn (processLogGames mk season pid tid lastD (t, c) gs).1 g.gamePk pid = true ∨
    dateSkip lastD g.date = true := by
  intro gs
  induction gs with
  | nil => intro t c g hg; cases hg
  | cons g0 gs ih =>
    intro t c g hg
    by_cases hsk : dateSkip lastD g0.date = true
    · rcases List.mem_cons.mp hg with rfl | hgs
      · exact Or.inr hsk
      · simp only [processLogGames]
        rw [if_pos hsk]
        exact ih t c g hgs
    · rcases List.mem_cons.mp hg with rfl | hgs
      · simp only [processLogGames]
        rw [if_neg hsk]
        have hstep : pairIn (logStep mk season pid tid t c g).1 g.gamePk pid = true := by
          unfold logStep
          by_cases hpi : pairIn t g.gamePk pid = true
          · rw [if_pos hpi]; exact hpi
          · rw [if_neg hpi]
            rw [pairIn, List.any_eq_true]
            refine ⟨_, List.mem_cons_self _ _, ?_⟩
            simp
        exact Or.inl (pairIn_mono _ _
          (processLogGames_subset mk season pid tid lastD gs
            (logStep mk season pid tid t c g).1 (logStep mk season pid tid t c g).2)
          _ _ hstep)
      · simp only [processLogGames]
        rw [if_neg hsk]
        exact ih (logStep mk season pid tid t c g0).1 (logStep mk season pid tid t c g0).2 g hgs

theorem processPlayerLog_done {σ π : Type} (mk : ℤ → ℤ → GameEntry σ → π)
    (season : String) (s : List (LogRow π) × ℕ) (p : PlayerLogFetch σ) :
    LogDone season (processPlayerLog mk season s p).1 p := by
  intro gs hgs g hg
  have heq : processPlayerLog mk season s p =
      processLogGames mk season p.player_id p.team_id
        (lastGameDate s.1 p.player_id season) s gs := by
    unfold processPlayerLog
    rw [hgs]
  rw [heq]
  rcases processLogGames_covers mk season p.player_id p.team_id
      (lastGameDate s.1 p.player_id season) gs s.1 s.2 g hg with hp | hsk
  · exact Or.inl hp
  · unfold dateSkip at hsk
    cases hld : lastGameDate s.1 p.player_id season with
    | none => rw [hld] at hsk; cases hsk
    | some d =>
      rw [hld] at hsk
      have hle : g.date ≤ d := of_decide_eq_true hsk
      obtain ⟨d', hd', hdd⟩ := lastGameDate_mono s.1 _
        (processLogGames_subset mk season p.player_id p.team_id (some d) gs s.1 s.2)
        p.player_id season d hld
      exact Or.inr ⟨d', hd', le_trans hle hdd⟩

theorem processLogGames_noop {σ π : Type} (mk : ℤ → ℤ → GameEntry σ → π)
    (season : String) (pid tid : ℤ) (t : List (LogRow π)) :
    ∀ (gs : List (GameEntry σ)) (c : ℕ),
    (∀ g ∈ gs, pairIn t g.gamePk pid = true ∨
      dateSkip (lastGameDate t pid season) g.date = true) →
    processLogGames mk season pid tid (lastGameDate t pid season) (t, c) gs = (t, c) := by
  intro gs
  induction gs with
  | nil => intro c _; rfl
  | cons g gs ih =>
    intro c h
    by_cases hsk : dateSkip (lastGameDate t pid season) g.date = true
    · simp only [processLogGames]
      rw [if_pos hsk]
      exact ih c (fun g' hg' => h g' (by simp [hg']))
    · have hpi : pairIn t g.gamePk pid = true := by
        rcases h g (by simp) with hp | hs
        · exact hp
        · exact absurd hs hsk
      simp only [processLogGames]
      rw [if_neg hsk]
      have hstep : logStep mk season pid tid t c g = (t, c) := by
        unfold logStep
        rw [if_pos hpi]
      rw [hstep]
      exact ih c (fun g' hg' => h g' (by simp [hg']))

theorem processPlayerLog_noop {σ π : Type} (mk : ℤ → ℤ → GameEntry σ → π)
    (season : String) (t : List (LogRow π)) (c : ℕ) (p : PlayerLogFetch σ)
    (h : LogDone season t p) :
    processPlayerLog mk season (t, c) p = (t, c) := by
  unfold processPlayerLog
  cases hg : p.games with
  | error m => rfl
  | ok gs =>
    refine processLogGames_noop mk season p.player_id p.team_id t gs c ?_
    intro g hgmem
    rcases h gs hg g hgmem with hp | ⟨d, hd, hle⟩
    · exact Or.inl hp
    · right
      unfold dateSkip
      rw [hd]
      exact decide_eq_true hle

theorem gameLogGo_done {σ π : Type} (mk : ℤ → ℤ → GameEntry σ → π) (season : String) :
    ∀ (ps : List (PlayerLogFetch σ)) (s : List (LogRow π) × ℕ) (p : PlayerLogFetch σ),
    p ∈ ps → LogDone season (gameLogGo mk season s ps).1 p := by
  intro ps
  induction ps with
  | nil => intro s p hp; cases hp
  | cons q ps ih =>
    intro s p hp
    simp only [gameLogGo]
    rcases List.mem_cons.mp hp with rfl | hps
    · exact logDone_mono season _ _ (gameLogGo_subset mk season ps _) p
        (processPlayerLog_done mk season s p)
    · exact ih _ p hps

theorem gameLogGo_noop {σ π : Type} (mk : ℤ → ℤ → GameEntry σ → π) (season : String) :
    ∀ (ps : List (PlayerLogFetch σ)) (t : List (LogRow π)) (c : ℕ),
    (∀ p ∈ ps, LogDone season t p) →
    gameLogGo mk season (t, c) ps = (t, c) := by
  intro ps
  induction ps with
  | nil => intro t c _; rfl
  | cons q ps ih =>
    intro t c h
    simp only [gameLogGo]
    rw [processPlayerLog_noop mk season t c q (h q (by simp))]
    exact ih t c (fun p hp => h p (by simp [hp]))

theorem logStep_unique {σ π : Type} (mk : ℤ → ℤ → GameEntry σ → π) (season : String)
    (pid tid : ℤ) (t : List (LogRow π)) (c : ℕ) (g : GameEntry σ)
    (h : PairwiseUniqueLog t) : PairwiseUniqueLog (logStep mk season pid tid t c g).1 := by
  unfold logStep
  by_cases hpi : pairIn t g.gamePk pid = true
  · rw [if_pos hpi]; exact h
  · rw [if_neg hpi]
    refine List.Pairwise.cons ?_ h
    intro b hb hcon
    apply hpi
    rw [pairIn, List.any_eq_true]
    refine ⟨b, hb, ?_⟩
    obtain ⟨h1, h2⟩ := hcon
    rw [← h1, ← h2]
    simp

theorem processLogGames_unique {σ π : Type} (mk : ℤ → ℤ → GameEntry σ → π)
    (season : String) (pid tid : ℤ) (lastD : Option String) :
    ∀ (gs : List (GameEntry σ)) (t : List (LogRow π)) (c : ℕ),
    PairwiseUniqueLog t →
    PairwiseUniqueLog (processLogGames mk season pid tid lastD (t, c) gs).1 := by
  intro gs
  induction gs with
  | nil => intro t c h; exact h
  | cons g gs ih =>
    intro t c h
    by_cases hsk : dateSkip lastD g.date = true
    · simp only [processLogGames]
      rw [if_pos hsk]
      exact ih t c h
    · simp only [processLogGames]
      rw [if_neg hsk]
      exact ih (logStep mk season pid tid t c g).1 (logStep mk season pid tid t c g).2
        (logStep_unique mk season pid tid t c g h)

theorem processPlayerLog_unique {σ π : Type} (mk : ℤ → ℤ → GameEntry σ → π)
    (season : String) (s : List (LogRow π) × ℕ) (p : PlayerLogFetch σ)
    (h : PairwiseUniqueLog s.1) : PairwiseUniqueLog (processPlayerLog mk season s p).1 := by
  unfold processPlayerLog
  cases hg : p.games with
  | error m => exact h
  | ok gs => exact processLogGames_unique mk season p.player_id p.team_id _ gs s.1 s.2 h

theorem gameLogGo_unique {σ π : Type} (mk : ℤ → ℤ → GameEntry σ → π) (season : String) :
    ∀ (ps : List (PlayerLogFetch σ)) (s : List (LogRow π) × ℕ),
    PairwiseUniqueLog s.1 → PairwiseUniqueLog (gameLogGo mk season s ps).1 := by
  intro ps
  induction ps with
  | nil => intro s h; exact h
  | cons q ps ih =>
    intro s h
    simp only [gameLogGo]
    exact ih _ (processPlayerLog_unique mk season s q h)

/-- C2: starting from a table whose rows are unique per
`(game_id, player_id)`, a game-log run preserves that uniqueness (so no
pair is ever duplicated or overwritten), and a second run over identical
upstream data leaves the table unchanged and returns count 0 — for both
game-log collectors. -/
theorem game_log_idempotent :
    (∀ (season : String) (sched : List (ℤ × ScheduleRow))
        (db : List (LogRow BatterLogRest)) (players : List (PlayerLogFetch BatGameStat)),
      PairwiseUniqueLog db →
      PairwiseUniqueLog (batterGameLogCollect season sched db players).1 ∧
      batterGameLogCollect season sched (batterGameLogCollect season sched db players).1
          players =
        ((batterGameLogCollect season sched db players).1, 0)) ∧
    (∀ (season : String) (sched : List (ℤ × ScheduleRow))
        (db : List (LogRow PitcherLogRest)) (players : List (PlayerLogFetch PitGameStat)),
      PairwiseUniqueLog db →
      PairwiseUniqueLog (pitcherGameLogCollect season sched db players).1 ∧
      pitcherGameLogCollect season sched (pitcherGameLogCollect season sched db players).1
          players =
        ((pitcherGameLogCollect season sched db players).1, 0)) := by
  constructor
  · intro season sched db players hu
    refine ⟨gameLogGo_unique (mkBatterLogRest sched) season players (db, 0) hu, ?_⟩
    exact gameLogGo_noop (mkBatterLogRest sched) season players _ 0
      (fun p hp => gameLogGo_done (mkBatterLogRest sched) season players (db, 0) p hp)
  · intro season sched db players hu
    refine ⟨gameLogGo_unique (mkPitcherLogRest sched) season players (db, 0) hu, ?_⟩
    exact gameLogGo_noop (mkPitcherLogRest sched) season players _ 0
      (fun p hp => gameLogGo_done (mkPitcherLogRest sched) season players (db, 0) p hp)

def c2Stat : BatGameStat :=
  { plateAppearances := 5, atBats := 4, hits := 2, doubles := 1, triples := 0,
    homeRuns := 1, rbi := 3, runs := 2, stolenBases := 0, baseOnBalls := 1,
    strikeOuts := 1, totalBases := 7 }

def c2Players : List (PlayerLogFetch BatGameStat) :=
  [{ player_id := 1, player_name := "Aaron Judge", team_id := 147,
     games := .ok [{ date := "2026-04-01", gamePk := 717001, stat := c2Stat }] }]

theorem game_log_idempotent_witness :
    PairwiseUniqueLog (batterGameLogCollect "2026" [] [] c2Players).1 ∧
    batterGameLogCollect "2026" [] (batterGameLogCollect "2026" [] [] c2Players).1
        c2Players =
      ((batterGameLogCollect "2026" [] [] c2Players).1, 0) :=
  game_log_idempotent.1 "2026" [] [] c2Players List.Pairwise.nil

end MLB

namespace MLB

/-! ## Lineup collector (src/collectors/lineups.py)

The `starting_lineups` table is not created by `src/db/init_db.py`; its key
is modelled from the spec.  Everything else below (date conversion, game
resolution with API fallback, the batting-order filter and position
computation) is embedded from `LineupCollector.collect`. -/

/-- One entry of a boxscore batter list (fields read at lineups.py:65-84);
`battingOrder` is absent (`none`) or a string, defaulted to "0". -/
structure BoxBatter where
  battingOrder : Option String
  substitution : Bool
  personId : ℤ
  name : String
  position : String
deriving DecidableEq

structure Boxscore where
  homeBatters : List BoxBatter
  awayBatters : List BoxBatter
deriving DecidableEq

/-- A `starting_lineups` row (columns of the INSERT at lineups.py:86-94). -/
structure LineupRow where
  game_id : ℤ
  game_date : String
  team_id : ℤ
  player_id : ℤ
  player_name : String
  batting_order : ℤ
  position : String
deriving DecidableEq

/-- `datetime.strptime(d, "%m/%d/%Y").strftime("%Y-%m-%d")` on a
well-formed MM/DD/YYYY input (a malformed date raises in the code and is
out of scope here). -/
def mmddyyyyToIso (s : String) : String :=
  s.drop 6 ++ "-" ++ s.take 2 ++ "-" ++ (s.drop 3).take 2

/-- The per-batter filter and row construction (lineups.py:66-94): parse
`battingOrder` (default "0"; an unparsable value is skipped), keep only a
non-zero multiple of 100 with `substitution` false, and store
`position = order_int // 100` in the `batting_order` column. -/
def mkLineupRow (gid : ℤ) (dateIso : String) (tid : ℤ) (b : BoxBatter) :
    Option LineupRow :=
  match parseIntStr (b.battingOrder.getD "0") with
  | none => none
  | some oi =>
    if oi = 0 ∨ oi % 100 ≠ 0 then none
    else if b.substitution then none
    else some { game_id := gid, game_date := dateIso, team_id := tid,
                player_id := b.personId, player_name := b.name,
                batting_order := Int.fdiv oi 100, position := b.position }

/-- Modelled from the spec: the `starting_lineups` table (missing from
`init_db.py`) is keyed by (game id, team id, batting order), so the
collector's `INSERT OR REPLACE` upserts on that triple. -/
def processLineupBatters (gid : ℤ) (dateIso : String) :
    List ((ℤ × ℤ × ℤ) × LineupRow) × ℕ → List (ℤ × BoxBatter) →
    List ((ℤ × ℤ × ℤ) × LineupRow) × ℕ
  | s, [] => s
  | s, tb :: bs =>
    match mkLineupRow gid dateIso tb.1 tb.2 with
    | none => processLineupBatters gid dateIso s bs
    | some r =>
      processLineupBatters gid dateIso
        (upsertTab s.1 (gid, tb.1, r.batting_order) r, s.2 + 1) bs

/-- One game to process: ids from the schedule (or API fallback) plus the
determinised boxscore fetch outcome. -/
structure GameBox where
  game_id : ℤ
  home_team_id : ℤ
  away_team_id : ℤ
  box : Except String Boxscore

/-- `for side, team_id in [("homeBatters", home), ("awayBatters", away)]`. -/
def sideBatters (gb : GameBox) (bx : Boxscore) : List (ℤ × BoxBatter) :=
  bx.homeBatters.map (fun b => (gb.home_team_id, b)) ++
    bx.awayBatters.map (fun b => (gb.away_team_id, b))

def lineupGo (dateIso : String) :
    List ((ℤ × ℤ × ℤ) × LineupRow) × ℕ → List GameBox →
    List ((ℤ × ℤ × ℤ) × LineupRow) × ℕ
  | s, [] => s
  | s, gb :: rest =>
    match gb.box with
    | .error _ => lineupGo dateIso s rest
    | .ok bx =>
      lineupGo dateIso (processLineupBatters gb.game_id dateIso s (sideBatters gb bx)) rest

/-- Game resolution (lineups.py:40-53): games on the date from the
schedule table, else the live-schedule fallback. -/
def lineupGames (sched : List (ℤ × ScheduleRow)) (dateIso : String)
    (apiGames : List (ℤ × ℤ × ℤ)) : List (ℤ × ℤ × ℤ) :=
  let fromSched := (sched.filter (fun e => e.2.game_date == dateIso)).map
    (fun e => (e.1, e.2.home_team_id, e.2.away_team_id))
  if fromSched.isEmpty then apiGames else fromSched

def lineupGameBoxes (sched : List (ℤ × ScheduleRow)) (boxOf : ℤ → Except String Boxscore)
    (apiGames : List (ℤ × ℤ × ℤ)) (dateIso : String) : List GameBox :=
  (lineupGames sched dateIso apiGames).map
    (fun g => { game_id := g.1, home_team_id := g.2.1, away_team_id := g.2.2,
                box := boxOf g.1 })

/-- `LineupCollector.collect` (lineups.py:19-102) over determinised
boxscore fetches. -/
def lineupCollect (sched : List (ℤ × ScheduleRow)) (boxOf : ℤ → Except String Boxscore)
    (apiGames : List (ℤ × ℤ × ℤ)) (db : List ((ℤ × ℤ × ℤ) × LineupRow))
    (game_date : String) : List ((ℤ × ℤ × ℤ) × LineupRow) × ℕ :=
  lineupGo (mmddyyyyToIso game_date) (db, 0)
    (lineupGameBoxes sched boxOf apiGames (mmddyyyyToIso game_date))

theorem processLineupBatters_lookup (gid : ℤ) (dateIso : String) :
    ∀ (bs : List (ℤ × BoxBatter)) (t : List ((ℤ × ℤ × ℤ) × LineupRow)) (c : ℕ)
      (k : ℤ × ℤ × ℤ) (r : LineupRow),
    lookupTab (processLineupBatters gid dateIso (t, c) bs).1 k = some r →
    (∃ tb ∈ bs, mkLineupRow gid dateIso tb.1 tb.2 = some r) ∨ lookupTab t k = some r := by
  intro bs
  induction bs with
  | nil => intro t c k r h; exact Or.inr h
  | cons tb bs ih =>
    intro t c k r h
    cases hmk : mkLineupRow gid dateIso tb.1 tb.2 with
    | none =>
      simp only [processLineupBatters, hmk] at h
      rcases ih t c k r h with ⟨tb', htb', hr'⟩ | hbase
      · exact Or.inl ⟨tb', by simp [htb'], hr'⟩
      · exact Or.inr hbase
    | some r0 =>
      simp only [processLineupBatters, hmk] at h
      rcases ih _ _ k r h with ⟨tb', htb', hr'⟩ | hbase
      · exact Or.inl ⟨tb', by simp [htb'], hr'⟩
      · by_cases hk : (gid, tb.1, r0.batting_order) = k
        · rw [← hk, lookupTab_upsertTab_self] at hbase
          cases hbase
          exact Or.inl ⟨tb, by simp, hmk⟩
        · rw [lookupTab_upsertTab_ne _ _ _ _ hk] at hbase
          exact Or.inr hbase

theorem lineupGo_lookup (dateIso : String) :
    ∀ (gbs : List GameBox) (t : List ((ℤ × ℤ × ℤ) × LineupRow)) (c : ℕ)
      (k : ℤ × ℤ × ℤ) (r : LineupRow),
    lookupTab (lineupGo dateIso (t, c) gbs).1 k = some r →
    (∃ gb ∈ gbs, ∃ bx, gb.box = .ok bx ∧ ∃ tb ∈ sideBatters gb bx,
      mkLineupRow gb.game_id dateIso tb.1 tb.2 = some r) ∨
    lookupTab t k = some r := by
  intro gbs
  induction gbs with
  | nil => intro t c k r h; exact Or.inr h
  | cons gb gbs ih =>
    intro t c k r h
    cases hb : gb.box with
    | error m =>
      simp only [lineupGo, hb] at h
      rcases ih t c k r h with ⟨gb', hgb', hrest⟩ | hbase
      · exact Or.inl ⟨gb', by simp [hgb'], hrest⟩
      · exact Or.inr hbase
    | ok bx =>
      simp only [lineupGo, hb] at h
      rcases ih (processLineupBatters gb.game_id dateIso (t, c) (sideBatters gb bx)).1
          (processLineupBatters gb.game_id dateIso (t, c) (sideBatters gb bx)).2 k r h
        with ⟨gb', hgb', hrest⟩ | hbase
      · exact Or.inl ⟨gb', by simp [hgb'], hrest⟩
      · rcases processLineupBatters_lookup gb.game_id dateIso (sideBatters gb bx) t c k r hbase
          with ⟨tb, htb, hr⟩ | hbase2
        · exact Or.inl ⟨gb, by simp, bx, hb, tb, htb, hr⟩
        · exact Or.inr hbase2

/-- C9: a lineup row is produced for a boxscore batter entry exactly when
its battingOrder parses to a non-zero multiple of 100 and its substitution
flag is false; the stored lineup position is battingOrder // 100; every
row stored by `lineupCollect` arises that way (or predates the run); and
concretely "300"/false gives position 3, "101" is excluded, and any
substitute is excluded. -/
theorem lineup_filter_spec :
    (∀ (gid : ℤ) (dateIso : String) (tid : ℤ) (b : BoxBatter),
      (∃ r, mkLineupRow gid dateIso tid b = some r) ↔
      (∃ oi, parseIntStr (b.battingOrder.getD "0") = some oi ∧
        oi ≠ 0 ∧ oi % 100 = 0 ∧ b.substitution = false)) ∧
    (∀ (gid : ℤ) (dateIso : String) (tid : ℤ) (b : BoxBatter) (r : LineupRow) (oi : ℤ),
      mkLineupRow gid dateIso tid b = some r →
      parseIntStr (b.battingOrder.getD "0") = some oi →
      r.batting_order = Int.fdiv oi 100) ∧
    (∀ (sched : List (ℤ × ScheduleRow)) (boxOf : ℤ → Except String Boxscore)
        (apiGames : List (ℤ × ℤ × ℤ)) (db : List ((ℤ × ℤ × ℤ) × LineupRow))
        (game_date : String) (k : ℤ × ℤ × ℤ) (r : LineupRow),
      lookupTab (lineupCollect sched boxOf apiGames db game_date).1 k = some r →
      (∃ gb ∈ lineupGameBoxes sched boxOf apiGames (mmddyyyyToIso game_date),
        ∃ bx, gb.box = .ok bx ∧ ∃ tb ∈ sideBatters gb bx,
          mkLineupRow gb.game_id (mmddyyyyToIso game_date) tb.1 tb.2 = some r) ∨
      lookupTab db k = some r) ∧
    ((mkLineupRow 717001 "2026-04-01" 147
        { battingOrder := some "300", substitution := false, personId := 1003,
          name := "Starter", position := "C" }).map LineupRow.batting_order = some 3) ∧
    (mkLineupRow 717001 "2026-04-01" 147
        { battingOrder := some "101", substitution := false, personId := 1004,
          name := "Pinch", position := "PH" } = none) ∧
    (∀ (gid : ℤ) (dateIso : String) (tid : ℤ) (b : BoxBatter),
      b.substitution = true → mkLineupRow gid dateIso tid b = none) := by
  refine ⟨?_, ?_, ?_, by decide, by decide, ?_⟩
  · intro gid dateIso tid b
    cases hp : parseIntStr (b.battingOrder.getD "0") with
    | none => simp [mkLineupRow, hp]
    | some oi =>
      by_cases h1 : oi = 0 ∨ oi % 100 ≠ 0
      · simp only [mkLineupRow, hp, if_pos h1]
        constructor
        · intro ⟨r, hr⟩; cases hr
        · intro ⟨oi', hoi', hne, hmod, _⟩
          cases hoi'
          rcases h1 with h1 | h1
          · exact absurd h1 hne
          · exact absurd hmod h1
      · by_cases h2 : b.substitution = true
        · simp only [mkLineupRow, hp, if_neg h1, if_pos h2]
          constructor
          · intro ⟨r, hr⟩; cases hr
          · intro ⟨oi', hoi', _, _, hsub⟩
            rw [h2] at hsub
            cases hsub
        · simp only [mkLineupRow, hp, if_neg h1, if_neg h2]
          push_neg at h1
          constructor
          · intro _
            exact ⟨oi, rfl, h1.1, h1.2, by simpa using h2⟩
          · intro _
            exact ⟨_, rfl⟩
  · intro gid dateIso tid b r oi hmk hp
    simp only [mkLineupRow, hp] at hmk
    by_cases h1 : oi = 0 ∨ oi % 100 ≠ 0
    · rw [if_pos h1] at hmk
      cases hmk
    · rw [if_neg h1] at hmk
      by_cases h2 : b.substitution = true
      · rw [if_pos h2] at hmk
        cases hmk
      · rw [if_neg h2] at hmk
        cases hmk
        rfl
  · intro sched boxOf apiGames db game_date k r h
    exact lineupGo_lookup (mmddyyyyToIso game_date)
      (lineupGameBoxes sched boxOf apiGames (mmddyyyyToIso game_date)) db 0 k r h
  · intro gid dateIso tid b hsub
    cases hp : parseIntStr (b.battingOrder.getD "0") with
    | none => simp [mkLineupRow, hp]
    | some oi => simp [mkLineupRow, hp, hsub]

theorem lineup_filter_spec_witness :
    ({ game_id := 717001, game_date := "2026-04-01", team_id := 147, player_id := 1003,
       player_name := "Starter", batting_order := 3, position := "C" } : LineupRow).batting_order
      = Int.fdiv 300 100 :=
  lineup_filter_spec.2.1 717001 "2026-04-01" 147
    { battingOrder := some "300", substitution := false, personId := 1003,
      name := "Starter", position := "C" }
    { game_id := 717001, game_date := "2026-04-01", team_id := 147, player_id := 1003,
      player_name := "Starter", batting_order := 3, position := "C" } 300
    (by decide) (by decide)

end MLB
